import Mathlib

/-!
Formal model of the Manga-AI backend video-generation core
(`src/backend/server.js`, `src/backend/veoUtils.js`, and the
orchestrator variant in `src/unnamed/part_000`), together with proofs
and refutations of the testable properties stated in the design
specification.

Conventions used throughout this development:

* JavaScript strings are modelled by Lean `String` / `List Char`;
  machine integers (bitwise 32-bit arithmetic in `stableSeedFromString`)
  are modelled by `Nat` with explicit `% 2^32`.
* Asynchronous code (the concurrency gate, the retrying HTTP client,
  the long-poll loop, the orchestrator) is modelled by explicit state
  passing; the outcomes of network calls are supplied by oracle
  functions so that one Lean definition covers every upstream
  behaviour.
* JavaScript regular-expression replacement (`String.prototype.replace`
  with a `/g` flag) is modelled by a small backtracking regex engine
  with the same preference order (ordered alternation, greedy
  quantifiers) as the ECMAScript semantics.
-/

/-! ## JavaScript string primitives -/

/-- JS truthiness of an optional string value: `null`/`undefined` and the
empty string are falsy. -/
def truthyS : Option String → Bool
  | none => false
  | some s => s ≠ ""

/-- The UTF-16 code units of a string, as produced by JS `charCodeAt`:
code points above `0xFFFF` are encoded as a surrogate pair. -/
def utf16CodeUnits (s : String) : List Nat :=
  s.data.flatMap fun c =>
    let n := c.toNat
    if n < 65536 then [n]
    else
      let u := n - 65536
      [55296 + u / 1024, 56320 + u % 1024]

/-- Does the list start with `sub`? -/
def startsWithList : List Char → List Char → Bool
  | _, [] => true
  | [], _ :: _ => false
  | c :: l, d :: sub => (c == d) && startsWithList l sub

/-- Does the list contain `sub` as a contiguous segment? -/
def containsList : List Char → List Char → Bool
  | [], sub => startsWithList [] sub
  | c :: t, sub => startsWithList (c :: t) sub || containsList t sub

/-- Substring test, the model of JS `String.prototype.includes`. -/
def jsIncludes (s sub : String) : Bool :=
  containsList s.data sub.data

/-! ## `veoUtils.js`: the upstream request adapter -/

/-- An inline image payload (`{ imageBytes, mimeType }`). -/
structure VeoImage where
  imageBytes : String
  mimeType : String
deriving DecidableEq

/-- One entry of `parameters.referenceImages`. -/
structure VeoReferenceImage where
  referenceType : String
  referenceId : Int
  image : VeoImage
deriving DecidableEq

/-- The `parameters` object of the Gemini-mode request body.  Every field
is optional so that the orchestrator's `delete parameters.<field>`
recovery steps can be modelled; `buildVeoRequestBody` always populates
`aspectRatio` and `resolution`. -/
structure VeoParameters where
  aspectRatio : Option String
  resolution : Option String
  numberOfVideos : Option Int
  personGeneration : Option String
  seed : Option Int
  referenceImages : Option (List VeoReferenceImage)
deriving DecidableEq

/-- One element of the `instances` array. -/
structure VeoInstance where
  prompt : String
  image : Option VeoImage
deriving DecidableEq

/-- The request body sent to the `predictLongRunning` endpoint. -/
structure VeoRequestBody where
  instances : List VeoInstance
  parameters : VeoParameters
deriving DecidableEq

/-- The named arguments of `buildVeoRequestBody`.  `Option` models
absent/`undefined` arguments; `numberOfVideos` and `seed` are `some`
exactly when the JS value passes `Number.isInteger`. -/
structure VeoBuildArgs where
  prompt : String
  imageData : Option String
  mimeType : Option String
  aspectRatio : Option String
  resolution : Option String
  personGeneration : Option String
  numberOfVideos : Option Int
  seed : Option Int
  includeImage : Bool
  imageMode : String
deriving DecidableEq

/-- Model of `buildVeoRequestBody` (src/backend/veoUtils.js, lines 1-53). -/
def buildVeoRequestBody (a : VeoBuildArgs) : VeoRequestBody :=
  let params : VeoParameters :=
    { aspectRatio := some (if a.aspectRatio = some "9:16" then "9:16" else "16:9")
      resolution := some (if truthyS a.resolution then a.resolution.getD "" else "720p")
      numberOfVideos :=
        match a.numberOfVideos with
        | some n => if 0 < n then some n else none
        | none => none
      personGeneration := if truthyS a.personGeneration then a.personGeneration else none
      seed := a.seed
      referenceImages := none }
  if a.includeImage && truthyS a.imageData && truthyS a.mimeType then
    let img : VeoImage := ⟨a.imageData.getD "", a.mimeType.getD ""⟩
    if a.imageMode = "reference" then
      { instances := [⟨a.prompt, none⟩]
        parameters := { params with
          referenceImages := some [⟨"REFERENCE_TYPE_STYLE", 1, img⟩] } }
    else
      { instances := [⟨a.prompt, some img⟩], parameters := params }
  else
    { instances := [⟨a.prompt, none⟩], parameters := params }

/-- The orchestrator's image-mode switch
(`imageMode === 'reference' ? 'first_frame' : 'reference'`). -/
def switchImageMode (m : String) : String :=
  if m = "reference" then "first_frame" else "reference"

/-! ## `stableSeedFromString` (src/unnamed/part_000, lines 750-758) -/

/-- One loop iteration of the FNV-1a style hash:
`hash ^= code; hash = Math.imul(hash, 16777619)`, tracked as the
unsigned 32-bit pattern of the JS `Int32` value. -/
def fnvStep (h c : Nat) : Nat :=
  ((h ^^^ c) * 16777619) % 4294967296

/-- Model of `stableSeedFromString`: fold `fnvStep` over the UTF-16 code
units starting from `2166136261`, then `(hash >>> 0) % 2147483647`,
mapping `0` to `1`. -/
def stableSeedFromString (s : String) : Nat :=
  let h := (utf16CodeUnits s).foldl fnvStep 2166136261
  let seed := (h % 4294967296) % 2147483647
  if seed = 0 then 1 else seed

/-! ## A small ECMAScript-preference regex engine

The sanitization pass and the error classifiers use JS regexes with the
`gi` flags.  `rxMatch` is a continuation-passing backtracking matcher
with the ECMAScript preference order: ordered alternation (first
alternative wins) and greedy `?` / `*`.  All patterns in the source are
ASCII, so `/i` folding is ASCII case folding.  A `fuel` argument bounds
the recursion; every evaluation below supplies enough fuel for the
whole search. -/

/-- The JS regex `\s` class (also the set trimmed by `trim()`). -/
def isJsWsp (c : Char) : Bool :=
  let n := c.toNat
  n = 32 || n = 9 || n = 10 || n = 11 || n = 12 || n = 13 ||
  n = 160 || n = 5760 || (8192 ≤ n && n ≤ 8202) || n = 8232 || n = 8233 ||
  n = 8239 || n = 8287 || n = 12288 || n = 65279

/-- The JS regex word-character class `\w` = `[A-Za-z0-9_]`. -/
def isWordChar (c : Char) : Bool :=
  ('a' ≤ c && c ≤ 'z') || ('A' ≤ c && c ≤ 'Z') || ('0' ≤ c && c ≤ '9') || c = '_'

/-- ASCII lower-casing, the case folding used by the `/i` flag on the
ASCII-only patterns of this code base. -/
def asciiLower (c : Char) : Char :=
  if 'A' ≤ c && c ≤ 'Z' then Char.ofNat (c.toNat + 32) else c

/-- Atomic single-character matchers. -/
inductive RAtom where
  | lit (c : Char)
  | wsp
  | nonWord
  | notOf (cs : List Char)

/-- Does atom `a` match character `c`? -/
def matchAtom : RAtom → Char → Bool
  | .lit p, c => asciiLower c = asciiLower p
  | .wsp, c => isJsWsp c
  | .nonWord, c => !isWordChar c
  | .notOf cs, c => !(cs.contains c)

/-- Regex syntax: empty, atom, sequence, ordered alternation, greedy
star, greedy option, and the `\b` word-boundary assertion. -/
inductive Rx where
  | eps
  | atom (a : RAtom)
  | seq (r1 r2 : Rx)
  | alt (r1 r2 : Rx)
  | star (r : Rx)
  | opt (r : Rx)
  | bnd

/-- The `\b` assertion: a word character on exactly one side. -/
def isBoundary (prev : Option Char) (s : List Char) : Bool :=
  let pw := match prev with | some c => isWordChar c | none => false
  let nw := match s with | c :: _ => isWordChar c | [] => false
  pw != nw

/-- Backtracking matcher.  `rxMatch fuel r prev s k` tries to match `r`
at the start of `s` (with `prev` the character just before `s`, for
`\b`), then runs the continuation `k`; it returns the total number of
characters consumed by `r` and the continuation, preferring first
alternatives and greedy quantifiers exactly as ECMAScript does. -/
def rxMatch (fuel : Nat) (r : Rx) (prev : Option Char) (s : List Char)
    (k : Option Char → List Char → Option Nat) : Option Nat :=
  match fuel with
  | 0 => none
  | fuel + 1 =>
    match r with
    | .eps => k prev s
    | .atom a =>
      match s with
      | [] => none
      | c :: rest => if matchAtom a c then (k (some c) rest).map (· + 1) else none
    | .seq r1 r2 => rxMatch fuel r1 prev s fun p s2 => rxMatch fuel r2 p s2 k
    | .alt r1 r2 =>
      match rxMatch fuel r1 prev s k with
      | some n => some n
      | none => rxMatch fuel r2 prev s k
    | .opt r1 =>
      match rxMatch fuel r1 prev s k with
      | some n => some n
      | none => k prev s
    | .star r1 =>
      match rxMatch fuel r1 prev s (fun p s2 => rxMatch fuel (.star r1) p s2 k) with
      | some n => some n
      | none => k prev s
    | .bnd => if isBoundary prev s then k prev s else none

/-- One pass of `String.prototype.replace` with a `/g` regex over the
remaining input: scan left to right, replace each non-overlapping
leftmost match, and continue after it (an empty match consumes the
replacement plus one original character, as in ECMAScript).  `mf` is
the fuel handed to the matcher; the scan fuel (first `Nat` argument)
only needs to exceed the input length, since every step consumes at
least one character. -/
def replaceAllGo (r : Rx) (repl : List Char) (mf : Nat) :
    Nat → Option Char → List Char → List Char
  | 0, _, s => s
  | _ + 1, _, [] => []
  | fuel + 1, prev, c :: rest =>
    match rxMatch mf r prev (c :: rest) (fun _ _ => some 0) with
    | some (n + 1) =>
      repl ++ replaceAllGo r repl mf fuel (((c :: rest).take (n + 1)).getLast?)
        ((c :: rest).drop (n + 1))
    | some 0 => repl ++ c :: replaceAllGo r repl mf fuel (some c) rest
    | none => c :: replaceAllGo r repl mf fuel (some c) rest

/-- Model of `text.replace(rx, repl)` for a global regex `rx`. -/
def jsReplaceAll (r : Rx) (repl : String) (s : String) : String :=
  ⟨replaceAllGo r repl.data (2 * s.length + 300) (s.length + 1) none s.data⟩

/-- Sequence a list of regexes. -/
def rseq (l : List Rx) : Rx := l.foldr Rx.seq Rx.eps

/-- Case-insensitive literal word. -/
def rlit (s : String) : Rx := rseq (s.data.map (fun c => Rx.atom (RAtom.lit c)))

/-- Ordered alternation of a list of regexes. -/
def ralt : List Rx → Rx
  | [] => Rx.eps
  | [r] => r
  | r :: rs => Rx.alt r (ralt rs)

/-- Greedy optional suffix group such as `(?:ing|ed|s)?`. -/
def rsuf (l : List String) : Rx := Rx.opt (ralt (l.map rlit))

/-- Search: does `r` match anywhere in the remaining input? -/
def rxSearchGo (fuel : Nat) (r : Rx) : Option Char → List Char → Bool
  | prev, [] => (rxMatch fuel r prev [] fun _ _ => some 0).isSome
  | prev, c :: rest =>
    (rxMatch fuel r prev (c :: rest) fun _ _ => some 0).isSome ||
      rxSearchGo fuel r (some c) rest

/-- Model of `regex.test(s)` / `s.match(regex) !== null`. -/
def rxTest (r : Rx) (s : String) : Bool :=
  rxSearchGo (2 * s.length + 300) r none s.data

/-- The JS `trim()`: drop the whitespace run at each end. -/
def jsTrim (l : List Char) : List Char :=
  ((l.dropWhile isJsWsp).reverse.dropWhile isJsWsp).reverse

/-- Does the list start with a whitespace character? -/
def startsWsp : List Char → Bool
  | d :: _ => isJsWsp d
  | [] => false

/-- The scanner behind `replace(/\s{2,}/g, ' ')`.  The flag records that
the scan is inside the tail of a whitespace run already replaced by a
single space: such characters are dropped.  Outside a run, a whitespace
character followed by another starts a collapsed run, while a lone
whitespace character is kept as it is. -/
def collapseGo : Bool → List Char → List Char
  | _, [] => []
  | true, c :: rest =>
    if isJsWsp c then collapseGo true rest
    else c :: collapseGo false rest
  | false, c :: rest =>
    if isJsWsp c && startsWsp rest then ' ' :: collapseGo true rest
    else c :: collapseGo false rest

/-- Model of `replace(/\s{2,}/g, ' ')`: a maximal whitespace run of
length at least two becomes a single space; a lone whitespace character
is kept as it is. -/
def collapseWsRun (l : List Char) : List Char :=
  collapseGo false l

/-! ## The upstream error-message classifiers (`veoUtils.js`) -/

/-- One-or-more whitespace, `\s+`. -/
def wsp1 : Rx := Rx.seq (Rx.atom RAtom.wsp) (Rx.star (Rx.atom RAtom.wsp))

/-- The regex `.` outside a class: anything but a line terminator. -/
def dotAtom : RAtom :=
  RAtom.notOf ['\n', '\r', Char.ofNat 8232, Char.ofNat 8233]

/-- Model of `isUnsupportedImageError`: the regex
`imageBytes\W*isn't supported|inlineData\W*isn't supported` with `/i`. -/
def isUnsupportedImageError (message : String) : Bool :=
  rxTest (ralt
    [rseq [rlit "imageBytes", Rx.star (Rx.atom RAtom.nonWord), rlit "isn\x27t supported"],
     rseq [rlit "inlineData", Rx.star (Rx.atom RAtom.nonWord), rlit "isn\x27t supported"]])
    message

/-- The backtick capture of `getUnsupportedField`: the regex
``` `([^`]+)`\s+isn't supported ``` with `/i`, returning the first
capture.  The capture group must end at the next backtick, so the scan
looks for consecutive backticks with a non-empty span between them
followed by whitespace and the literal phrase, advancing one character
on failure exactly as the regex engine would. -/
def backtickFieldGo (fuel : Nat) : List Char → Option String
  | [] => none
  | c :: rest =>
    if c = '`' then
      let cap := rest.takeWhile (fun d => d ≠ '`')
      match rest.drop cap.length with
      | '`' :: tail =>
        if cap ≠ [] &&
            (rxMatch fuel (Rx.seq wsp1 (rlit "isn\x27t supported")) (some '`') tail
              fun _ _ => some 0).isSome
        then some ⟨cap⟩
        else backtickFieldGo fuel rest
      | _ => backtickFieldGo fuel rest
    else backtickFieldGo fuel rest

/-- The alternatives of the generic fallback capture group of
`getUnsupportedField`, in source order. -/
def fieldNames : List String :=
  ["personGeneration", "numberOfVideos", "aspectRatio", "resolution"]

/-- The generic fallback of `getUnsupportedField`: the regex
`\b(personGeneration|numberOfVideos|aspectRatio|resolution)\b.*not supported`
with `/i`, returning the text matched by the capture group of the
leftmost match. -/
def genericFieldGo (fuel : Nat) : Option Char → List Char → Option String
  | _, [] => none
  | prev, c :: rest =>
    match fieldNames.find? (fun n =>
        (rxMatch fuel
          (rseq [Rx.bnd, rlit n, Rx.bnd, Rx.star (Rx.atom dotAtom), rlit "not supported"])
          prev (c :: rest) fun _ _ => some 0).isSome) with
    | some n => some ⟨(c :: rest).take n.length⟩
    | none => genericFieldGo fuel (some c) rest

/-- Model of `getUnsupportedField` (src/backend/veoUtils.js): try the
backtick pattern, then the dedicated `personGeneration` phrase, then the
generic named-field fallback. -/
def getUnsupportedField (message : String) : Option String :=
  let fuel := 2 * message.length + 300
  match backtickFieldGo fuel message.data with
  | some f => some f
  | none =>
    if rxTest (rseq [rlit "for", wsp1, rlit "personGeneration", wsp1,
        rlit "is currently not supported"]) message then
      some "personGeneration"
    else
      genericFieldGo fuel none message.data

/-! ## `sanitizePrompt` (src/unnamed/part_000, lines 822-905, and
src/backend/server.js, lines 150-224) -/

/-- Word enclosed in `\b` boundaries. -/
def wbw (s : String) : Rx := rseq [Rx.bnd, rlit s, Rx.bnd]

/-- Word with an optional suffix group, enclosed in `\b` boundaries. -/
def wbwSuf (s : String) (sufs : List String) : Rx :=
  rseq [Rx.bnd, rlit s, rsuf sufs, Rx.bnd]

/-- Word with an optional suffix group, no boundaries. -/
def rwSuf (s : String) (sufs : List String) : Rx := Rx.seq (rlit s) (rsuf sufs)

/-- Word with a mandatory suffix alternation, no boundaries. -/
def rwMand (s : String) (sufs : List String) : Rx :=
  Rx.seq (rlit s) (ralt (sufs.map rlit))

/-- The replacement table of the part_000 variant of `sanitizePrompt`,
transliterated pattern by pattern in source order (all patterns carry
the `gi` flags). -/
def sanitizeRules : List (Rx × String) := [
  (rseq [rlit "chainsaw", Rx.star (Rx.atom RAtom.wsp), rlit "man"], "illustrated character"),
  (ralt [rlit "denji", rlit "kishibe", rlit "quanxi", rlit "pochita", rlit "poccontacta"],
    "character"),
  (wbwSuf "child" ["ren"], "person"),
  (wbwSuf "kid" ["s"], "person"),
  (wbwSuf "teen" ["ager", "s"], "person"),
  (wbwSuf "minor" ["s"], "person"),
  (wbwSuf "youth" ["s"], "person"),
  (wbw "young", ""),
  (wbwSuf "boy" ["s"], "person"),
  (wbwSuf "girl" ["s"], "person"),
  (wbw "man", "person"),
  (wbw "woman", "person"),
  (wbw "older", ""),
  (rlit "chainsaw", "mechanical tool"),
  (rseq [rlit "chain", Rx.star (Rx.atom RAtom.wsp), rlit "saw"], "mechanical tool"),
  (rwSuf "blade" ["s"], "edge"),
  (wbw "saw", "tool"),
  (rlit "serrated", "mechanical"),
  (rlit "jagged", "angular"),
  (ralt [rwSuf "spike" ["d"], rlit "spiky"], "angular"),
  (wbwSuf "lip" ["s"], "face"),
  (wbwSuf "mouth" ["s"], "face"),
  (wbw "tongue", "detail"),
  (rwSuf "kill" ["ing", "ed", "s", "er"], ""),
  (rwSuf "murder" ["ed", "ing", "er"], ""),
  (ralt [rlit "death", rlit "dead", rlit "dying", rlit "die"], ""),
  (ralt [rlit "corpse", rwSuf "gut" ["s"], rlit "viscera"], ""),
  (rwSuf "blood" ["y"], ""),
  (rwSuf "bleed" ["ing"], ""),
  (ralt [rlit "gore", rlit "gory"], ""),
  (rwSuf "wound" ["ed", "s"], ""),
  (rwMand "injur" ["e", "ed", "y", "ies"], ""),
  (rwSuf "hurt" ["ing"], ""),
  (ralt [rwSuf "pain" ["ful", "fully"], rlit "agony", rwSuf "suffer" ["ing"]], ""),
  (rwSuf "victim" ["s"], "figure"),
  (rwSuf "attack" ["ing", "ed", "s"], "dynamic motion"),
  (rwSuf "fight" ["ing", "s"], "dynamic motion"),
  (rlit "battle", "dynamic scene"),
  (rlit "combat", "dynamic movement"),
  (ralt [rwSuf "strike" ["s", "ing"], rwSuf "hit" ["ting", "s"],
    rwSuf "slam" ["med", "ming"], rwSuf "smash" ["ed", "ing"]], "contact"),
  (ralt [rwSuf "stomp" ["ed", "ing"], rwSuf "crush" ["ed", "ing"]], "press"),
  (ralt [rwSuf "cut" ["ting"], rwSuf "slice" ["d", "s", "ing"],
    rwSuf "slash" ["ed", "ing"], rwSuf "stab" ["bed", "bing"],
    rwMand "pierc" ["e", "ed", "ing"], rwMand "impal" ["e", "ed", "ing"]], ""),
  (rwSuf "weapon" ["s"], "prop"),
  (rwSuf "gun" ["s"], "prop"),
  (ralt [rlit "knife", rlit "knives"], "prop"),
  (rwSuf "sword" ["s"], "prop"),
  (rwSuf "axe" ["s"], "prop"),
  (rwSuf "spear" ["s"], "prop"),
  (rwSuf "splatter" ["s", "ed", "ing"], "drift"),
  (rwSuf "splash" ["es", "ed", "ing"], "drift"),
  (rlit "fluid", "liquid"),
  (rwSuf "droplet" ["s"], "small particles"),
  (rlit "liquid", "color wash"),
  (rwSuf "ooz" ["e", "ing"], "rapid shift"),
  (rwSuf "drip" ["ping", "s"], "rapid shift"),
  (rwSuf "simmer" ["ing"], "strong pulse"),
  (rwSuf "gasp" ["ing"], "heavy breathing"),
  (ralt [rlit "collapsed", rlit "fallen", rlit "defeated", rlit "suppressed",
    rlit "crushing"], "resting"),
  (ralt [rlit "pile", rlit "heap"], "group"),
  (wbw "boot", "foot"),
  (ralt [rlit "debris", rwSuf "fragment" ["s"]], "particles"),
  (ralt [rlit "dust", rlit "ash"], "grain"),
  (ralt [rwMand "explod" ["e", "ed", "ing"], rlit "explosion"], "glow pulse"),
  (ralt [rlit "maw", rwSuf "fang" ["s"], rlit "jaw"], "smile"),
  (rlit "teeth", "smile"),
  (rlit "toothy", "wide")]

/-- The `background: completely static` rewrite pattern of part_000:
`/background:\s*completely static[^\\n]*/gi` (the character class
excludes a backslash and the letter n). -/
def bgStaticPat : Rx :=
  rseq [rlit "background:", Rx.star (Rx.atom RAtom.wsp), rlit "completely static",
    Rx.star (Rx.atom (RAtom.notOf ['\\', 'n']))]

/-- Model of the part_000 variant of `sanitizePrompt`: apply every rule
of `sanitizeRules` in order, rewrite the static-background clause,
collapse whitespace runs and trim. -/
def sanitizePrompt (text : String) : String :=
  let afterRules := sanitizeRules.foldl (fun acc p => jsReplaceAll p.1 p.2 acc) text
  let afterBg := jsReplaceAll bgStaticPat
    "Panel/Props: strong continuous motion of existing details" afterRules
  ⟨jsTrim (collapseWsRun afterBg.data)⟩

/-- Model of the `src/backend/server.js` variant of `sanitizePrompt`:
its whole replacement table is commented out, so the function only
collapses whitespace runs (`replace(/\s{2,}/g, ' ')`) and trims. -/
def sanitizePromptServer (text : String) : String :=
  ⟨jsTrim (collapseWsRun text.data)⟩

/-! ## C7: sanitization purity and idempotence -/

/-- No two adjacent whitespace characters. -/
def noAdjWsp (l : List Char) : Prop :=
  List.Chain' (fun a b => isJsWsp a = false ∨ isJsWsp b = false) l

/-! ## `fetchWithRetry` (src/backend/server.js lines 386-428, identical
in src/unnamed/part_000) and the global cooldown -/

/-- `substring(0, n)`. -/
def strTake (n : Nat) (s : String) : String := ⟨s.data.take n⟩

/-- JS `parseInt` on a decimal string: skip leading whitespace, optional
sign, then the longest digit prefix; `none` models `NaN`. -/
def jsParseInt (s : String) : Option Int :=
  let l := s.data.dropWhile isJsWsp
  let sign : Int := if l.head? = some '-' then -1 else 1
  let l2 := if l.head? = some '-' || l.head? = some '+' then l.tail else l
  let digits := l2.takeWhile fun c => '0' ≤ c && c ≤ '9'
  if digits = [] then none
  else some (sign * (digits.foldl (fun acc c => acc * 10 + (c.toNat - 48)) 0 : Nat))

/-- The process-wide mutable state touched by the resilient client:
the clock and the shared cooldown deadline. -/
structure NetState where
  now : Int
  veoCooldownUntil : Int
deriving DecidableEq

/-- Model of `setVeoCooldown(ms)` (server.js lines 91-94): ignore a
non-finite or non-positive duration (`none` models `NaN`), otherwise
extend the deadline to `max(veoCooldownUntil, now + ms)` — it is never
shortened. -/
def setVeoCooldown (ms : Option Int) (st : NetState) : NetState :=
  match ms with
  | none => st
  | some m =>
    if m ≤ 0 then st
    else { st with veoCooldownUntil := max st.veoCooldownUntil (st.now + m) }

/-- The outcome of one `fetch` call, supplied by an oracle indexed by
the attempt number. -/
inductive FetchOutcome where
  | ok (body : String)
  | rateLimited (retryAfter : Option String)
  | httpError (status : Nat) (body : String)
  | transport (msg : String)
deriving DecidableEq

/-- The error message an attempt produces when it fails (the thrown
`Error`'s message), if it fails. -/
def outcomeMsg : FetchOutcome → Option String
  | .httpError status body => some ("API error " ++ toString status ++ ": " ++ strTake 200 body)
  | .transport m => some m
  | _ => none

/-- The `do not retry` test of the catch block:
`message.includes('400') || message.includes('401') || message.includes('403')`
(a substring test on the whole message, which embeds the response
body). -/
def msgHasCallerFault (msg : String) : Bool :=
  jsIncludes msg "400" || jsIncludes msg "401" || jsIncludes msg "403"

/-- The observable result of a `fetchWithRetry` run: the returned body
or thrown message, the number of `fetch` calls made, the value of the
cooldown deadline observed after each attempt, the sleeps performed
between attempts, and the final state. -/
structure RetryResult where
  result : Except String String
  attempts : Nat
  cooldowns : List Int
  sleeps : List Int
  final : NetState

/-- The attempt loop of `fetchWithRetry`.  `remaining` counts the loop
iterations left (`maxRetries - attempt`); on HTTP 429 the wait comes
from the `Retry-After` header (seconds times 1000) when the header is
truthy, else exponential backoff, the global cooldown is armed and the
loop continues; on any other failure the attempt retries with
exponential backoff unless it is the last one or the message contains
`400`/`401`/`403`; exhaustion throws the last error. -/
def fetchWithRetryGo (oracle : Nat → FetchOutcome) (maxRetries : Nat) :
    Nat → Nat → Option String → NetState → RetryResult
  | 0, attempt, lastErr, st =>
    { result := .error (lastErr.getD "API error: Unknown failure")
      attempts := attempt, cooldowns := [], sleeps := [], final := st }
  | r + 1, attempt, lastErr, st =>
    match oracle attempt with
    | .ok body =>
      { result := .ok body, attempts := attempt + 1
        cooldowns := [st.veoCooldownUntil], sleeps := [], final := st }
    | .rateLimited h =>
      let waitTime : Option Int :=
        if truthyS h then (jsParseInt (h.getD "")).map (· * 1000)
        else some (2 ^ attempt * 1000)
      let st1 := setVeoCooldown waitTime st
      let slept := max 0 (waitTime.getD 0)
      let st2 : NetState := { st1 with now := st1.now + slept }
      let rest := fetchWithRetryGo oracle maxRetries r (attempt + 1)
        (some "API error 429: Rate limited") st2
      { rest with cooldowns := st1.veoCooldownUntil :: rest.cooldowns
                  sleeps := slept :: rest.sleeps }
    | .httpError status body =>
      let msg := "API error " ++ toString status ++ ": " ++ strTake 200 body
      if attempt < maxRetries - 1 && !msgHasCallerFault msg then
        let slept : Int := 2 ^ attempt * 1000
        let st2 : NetState := { st with now := st.now + slept }
        let rest := fetchWithRetryGo oracle maxRetries r (attempt + 1) (some msg) st2
        { rest with cooldowns := st.veoCooldownUntil :: rest.cooldowns
                    sleeps := slept :: rest.sleeps }
      else
        { result := .error msg, attempts := attempt + 1
          cooldowns := [st.veoCooldownUntil], sleeps := [], final := st }
    | .transport m =>
      if attempt < maxRetries - 1 && !msgHasCallerFault m then
        let slept : Int := 2 ^ attempt * 1000
        let st2 : NetState := { st with now := st.now + slept }
        let rest := fetchWithRetryGo oracle maxRetries r (attempt + 1) (some m) st2
        { rest with cooldowns := st.veoCooldownUntil :: rest.cooldowns
                    sleeps := slept :: rest.sleeps }
      else
        { result := .error m, attempts := attempt + 1
          cooldowns := [st.veoCooldownUntil], sleeps := [], final := st }

/-- Model of `fetchWithRetry(url, options, maxRetries)` run against an
attempt-outcome oracle from an initial state. -/
def fetchWithRetry (oracle : Nat → FetchOutcome) (maxRetries : Nat)
    (st : NetState) : RetryResult :=
  fetchWithRetryGo oracle maxRetries maxRetries 0 none st

/-! ## `sleepWithCancel` and `pollOperation`
(src/unnamed/part_000, lines 731-742 and 1270-1294) -/

/-- Result of an interruptible sleep: the absolute time at which it
completed, or at which the cancellation throw happened. -/
inductive SleepResult where
  | completed (finalTime : Nat)
  | canceled (atTime : Nat)
deriving DecidableEq

/-- The slice loop of `sleepWithCancel`: while `elapsed < ms`, check the
cancellation predicate (a function of absolute time; the sleep starts
at `t0`), then wait `min(250, ms - elapsed)`.  The fuel only needs to
exceed `ms`, since every slice waits at least 1ms. -/
def sleepWithCancelGo (cancel : Nat → Bool) (ms t0 : Nat) :
    Nat → Nat → SleepResult
  | 0, elapsed => .completed (t0 + elapsed)
  | fuel + 1, elapsed =>
    if elapsed < ms then
      if cancel (t0 + elapsed) then .canceled (t0 + elapsed)
      else sleepWithCancelGo cancel ms t0 fuel (elapsed + min 250 (ms - elapsed))
    else .completed (t0 + elapsed)

/-- Model of `sleepWithCancel(ms, shouldCancel)` started at absolute
time `t0`. -/
def sleepWithCancel (cancel : Nat → Bool) (ms t0 : Nat) : SleepResult :=
  sleepWithCancelGo cancel ms t0 (ms + 1) 0

/-- The parsed operation object returned by one status check. -/
inductive PollStatus where
  | pending
  | done (error : Option String) (response : Option String)
deriving DecidableEq

/-- The observable outcome of a `pollOperation` run: the returned
response or thrown message, the number of status checks issued, the
absolute times at which they were issued, and the final time. -/
structure PollOutcome where
  result : Except String (Option String)
  checks : Nat
  checkTimes : List Nat
  finalTime : Nat

/-- The loop of `pollOperation` (part_000 variant): at each iteration
first consult the cancellation predicate and throw if it is set, then
issue a status check (supplied by the oracle, indexed by check number);
a done operation with an error throws its message (or `Video gen
failed` when the message is falsy), a done operation without an error
returns its response, and a pending one sleeps one 5000ms interval
interruptibly and loops; exhausting `maxPolls` throws the timeout
error.  Checks are instantaneous in this model. -/
def pollOperationGo (statuses : Nat → PollStatus) (cancel : Nat → Bool) :
    Nat → Nat → Nat → PollOutcome
  | 0, i, t => ⟨.error "Video generation timed out", i, [], t⟩
  | r + 1, i, t =>
    if cancel t then ⟨.error "Request canceled by client", i, [], t⟩
    else
      match statuses i with
      | .done (some emsg) _ =>
        ⟨.error (if emsg = "" then "Video gen failed" else emsg), i + 1, [t], t⟩
      | .done none resp => ⟨.ok resp, i + 1, [t], t⟩
      | .pending =>
        match sleepWithCancel cancel 5000 t with
        | .canceled tc => ⟨.error "Request canceled by client", i + 1, [t], tc⟩
        | .completed tc =>
          let rest := pollOperationGo statuses cancel r (i + 1) tc
          { rest with checkTimes := t :: rest.checkTimes }

/-- Model of `pollOperation` with `maxPolls = 180` and
`pollInterval = 5000`, started at time 0. -/
def pollOperation (statuses : Nat → PollStatus) (cancel : Nat → Bool) : PollOutcome :=
  pollOperationGo statuses cancel 180 0 0

/-- A cancellation flag that becomes (and stays) true at time `T`. -/
def stepCancel (T : Nat) : Nat → Bool := fun t => decide (T ≤ t)

/-! ## The rejection-recovery catch of `POST /api/veo`
(src/backend/server.js lines 711-799, src/unnamed/part_000 lines
1633-1721; the two variants are identical) -/

/-- The configuration flags consulted by the recovery logic. -/
structure OrchConfig where
  requireImage : Bool
  allowImageFallback : Bool
deriving DecidableEq

/-- `requestBody.parameters?.[f] !== undefined` for the known parameter
keys (any other key is absent). -/
def paramsHasField (p : VeoParameters) (f : String) : Bool :=
  if f = "aspectRatio" then p.aspectRatio.isSome
  else if f = "resolution" then p.resolution.isSome
  else if f = "numberOfVideos" then p.numberOfVideos.isSome
  else if f = "personGeneration" then p.personGeneration.isSome
  else if f = "seed" then p.seed.isSome
  else if f = "referenceImages" then p.referenceImages.isSome
  else false

/-- `delete requestBody.parameters[f]`. -/
def paramsDelete (p : VeoParameters) (f : String) : VeoParameters :=
  if f = "aspectRatio" then { p with aspectRatio := none }
  else if f = "resolution" then { p with resolution := none }
  else if f = "numberOfVideos" then { p with numberOfVideos := none }
  else if f = "personGeneration" then { p with personGeneration := none }
  else if f = "seed" then { p with seed := none }
  else if f = "referenceImages" then { p with referenceImages := none }
  else p

/-- `requestBody.instances?.[0]?.image` truthiness. -/
def instanceHasImage (b : VeoRequestBody) : Bool :=
  match b.instances with
  | inst :: _ => inst.image.isSome
  | [] => false

/-- `requestBody.parameters?.referenceImages?.length` truthiness. -/
def refImagesTruthyLen (b : VeoRequestBody) : Bool :=
  match b.parameters.referenceImages with
  | some l => !l.isEmpty
  | none => false

/-- `if (requestBody.instances?.[0]?.image) delete requestBody.instances[0].image`. -/
def deleteInstanceImage (b : VeoRequestBody) : VeoRequestBody :=
  match b.instances with
  | inst :: rest =>
    if inst.image.isSome then { b with instances := { inst with image := none } :: rest }
    else b
  | [] => b

/-- The no-image downgrade: drop the instance image and the reference
list when present. -/
def deleteImages (b : VeoRequestBody) : VeoRequestBody :=
  let b1 := deleteInstanceImage b
  if b1.parameters.referenceImages.isSome then
    { b1 with parameters := { b1.parameters with referenceImages := none } }
  else b1

/-- The decision the catch block takes for a failed start call: retry
once with a rebuilt or downgraded body (carrying the updated
`imageMode` and `triedAlternateImageMode`), or throw. -/
inductive Recovery where
  | retry (newMode : String) (newTried : Bool) (body : VeoRequestBody)
  | rethrow (msg : String)
deriving DecidableEq

/-- The `isUnsupportedImageError` limb of the catch block. -/
def recoverImage (cfg : OrchConfig) (args : VeoBuildArgs) (imageMode : String)
    (tried : Bool) (body : VeoRequestBody) (message : String) : Recovery :=
  if isUnsupportedImageError message = true
      ∧ (instanceHasImage body = true ∨ refImagesTruthyLen body = true) then
    if cfg.requireImage then
      if tried = false then
        Recovery.retry (switchImageMode imageMode) true
          (buildVeoRequestBody { args with imageMode := switchImageMode imageMode })
      else
        Recovery.rethrow
          "Image inputs are required but the Gemini API rejected both image modes."
    else if cfg.allowImageFallback = false then
      Recovery.rethrow
        "Image inputs are required but the Gemini API rejected the image payload."
    else Recovery.retry imageMode tried (deleteImages body)
  else Recovery.rethrow message

/-- Model of the rejection-recovery catch: classify the error message,
then take the branch the source takes (drop the named field, switch the
image-attachment mode, drop the image, or throw). -/
def recoverStart (cfg : OrchConfig) (args : VeoBuildArgs) (imageMode : String)
    (tried : Bool) (body : VeoRequestBody) (message : String) : Recovery :=
  match getUnsupportedField message with
  | some f =>
    if f = "referenceImages" then
      if cfg.requireImage then
        if imageMode = "reference" ∧ tried = false then
          Recovery.retry "first_frame" true
            (buildVeoRequestBody { args with imageMode := "first_frame" })
        else
          Recovery.rethrow
            "referenceImages is not supported by this model. Try VEO_GEMINI_IMAGE_MODE=first_frame."
      else
        Recovery.retry imageMode tried
          { body with parameters := { body.parameters with referenceImages := none } }
    else if f = "personGeneration" then
      Recovery.retry imageMode tried
        { body with parameters := { body.parameters with personGeneration := none } }
    else if paramsHasField body.parameters f then
      Recovery.retry imageMode tried { body with parameters := paramsDelete body.parameters f }
    else recoverImage cfg args imageMode tried body message
  | none => recoverImage cfg args imageMode tried body message

/-- The sequence of request bodies the orchestrator's start phase sends
to the upstream: the initial body, then — only when the first call
failed with `msg` and the catch chooses a retry — exactly one more.
A failure of the retry propagates; the catch never loops. -/
def geminiStartBodies (cfg : OrchConfig) (args : VeoBuildArgs) (imageMode : String)
    (firstResult : Option String) : List VeoRequestBody :=
  let body0 := buildVeoRequestBody { args with imageMode := imageMode }
  match firstResult with
  | none => [body0]
  | some msg =>
    match recoverStart cfg args imageMode false body0 msg with
    | .retry _ _ b1 => [body0, b1]
    | .rethrow _ => [body0]

/-- Arguments of the C3 counterexample: image present, but
`VEO_PERSON_GENERATION` unset, so the built payload carries no
`personGeneration` parameter. -/
def pgArgs : VeoBuildArgs :=
  { prompt := "p", imageData := some "IMG", mimeType := some "image/png"
    aspectRatio := none, resolution := none, personGeneration := none
    numberOfVideos := none, seed := some 1, includeImage := true
    imageMode := "first_frame" }

/-- An upstream rejection naming `personGeneration` although the
payload never carried that field. -/
def pgMsg : String :=
  "Parameter veoAllowAll for personGeneration is currently not supported"

/-- The two degenerate recovery branches in which the code retries
although there is nothing to delete: the classifier names
`personGeneration` (resp. `referenceImages`, with `VEO_REQUIRE_IMAGE`
off) but the failed payload does not carry that field. -/
def recoveryDegenerate (cfg : OrchConfig) (body : VeoRequestBody) (msg : String) : Prop :=
  (getUnsupportedField msg = some "personGeneration"
    ∧ body.parameters.personGeneration = none)
  ∨ (getUnsupportedField msg = some "referenceImages" ∧ cfg.requireImage = false
    ∧ body.parameters.referenceImages = none)

/-! ## The concurrency gate under the cooperative scheduler
(`waitForVeoCooldown`/`acquireVeoSlot`/`releaseVeoSlot`,
src/backend/server.js lines 491-517, src/unnamed/part_000 lines
1335-1369)

Each in-flight request runs `acquireVeoSlot` as a sequence of atomic
segments separated by the suspension points of the source (the `await`
on `waitForVeoCooldown`, the queue promise, and the sleep timers).  The
scheduler is adversarial: any enabled segment may run, timers may fire
once the clock passes their deadline (Node fires timers with equal
deadlines in creation order, which the traces below respect), the clock
may advance, and `setVeoCooldown` may be invoked by a rate-limited
fetch of any in-flight request. -/

/-- Where a task stands inside `acquireVeoSlot`/`releaseVeoSlot`. -/
inductive TaskPhase where
  | start
  | cdWait1 (deadline : Nat)
  | check
  | queued
  | cdWait2 (deadline : Nat)
  | incr
  | holding
  | released
deriving DecidableEq

/-- Point update of a task map. -/
def setTask (f : Nat → TaskPhase) (i : Nat) (p : TaskPhase) : Nat → TaskPhase :=
  fun j => if j = i then p else f j

/-- The process-wide gate state plus the clock and the per-task phases. -/
structure GateState where
  maxConcurrent : Nat
  veoInFlight : Nat
  veoQueue : List Nat
  veoCooldownUntil : Nat
  now : Nat
  tasks : Nat → TaskPhase

/-- One scheduler step.  `callAcquire` runs the prefix of
`acquireVeoSlot` up to and including the first `waitForVeoCooldown`
suspension; `timerFire1`/`timerFire2` complete a cooldown sleep (the
source does not re-check the deadline after the sleep); `runCheck` is
the atomic `if (veoInFlight < VEO_MAX_CONCURRENT) veoInFlight += 1 else
queue.push`; `runIncr` is the blind `veoInFlight += 1` on the wake
path; `callRelease` is `releaseVeoSlot` together with the woken
waiter's synchronous re-entry into `waitForVeoCooldown`. -/
inductive GateStep where
  | callAcquire (i : Nat)
  | timerFire1 (i : Nat)
  | runCheck (i : Nat)
  | timerFire2 (i : Nat)
  | runIncr (i : Nat)
  | callRelease (i : Nat)
  | armCooldown (ms : Nat)
  | advanceTime (t : Nat)

/-- Is a step enabled in the current state?  (Timers only fire once the
clock has reached their deadline; segments only run for tasks in the
matching phase; time only moves forward.) -/
def gateEnabled (s : GateState) (st : GateStep) : Bool :=
  match st with
  | .callAcquire i => decide (s.tasks i = .start)
  | .timerFire1 i =>
    match s.tasks i with
    | .cdWait1 d => decide (d ≤ s.now)
    | _ => false
  | .runCheck i => decide (s.tasks i = .check)
  | .timerFire2 i =>
    match s.tasks i with
    | .cdWait2 d => decide (d ≤ s.now)
    | _ => false
  | .runIncr i => decide (s.tasks i = .incr)
  | .callRelease i => decide (s.tasks i = .holding)
  | .armCooldown _ => true
  | .advanceTime t => decide (s.now ≤ t)

/-- Step semantics, transcribed from the source (limiting enabled,
`VEO_MAX_CONCURRENT ≥ 1`). -/
def gateApply (s : GateState) (st : GateStep) : GateState :=
  match st with
  | .callAcquire i =>
    if s.veoCooldownUntil ≤ s.now then { s with tasks := setTask s.tasks i .check }
    else { s with tasks := setTask s.tasks i (.cdWait1 s.veoCooldownUntil) }
  | .timerFire1 i => { s with tasks := setTask s.tasks i .check }
  | .runCheck i =>
    if s.veoInFlight < s.maxConcurrent then
      { s with veoInFlight := s.veoInFlight + 1, tasks := setTask s.tasks i .holding }
    else
      { s with veoQueue := s.veoQueue ++ [i], tasks := setTask s.tasks i .queued }
  | .timerFire2 i => { s with tasks := setTask s.tasks i .incr }
  | .runIncr i =>
    { s with veoInFlight := s.veoInFlight + 1, tasks := setTask s.tasks i .holding }
  | .callRelease i =>
    let s1 : GateState :=
      { s with veoInFlight := s.veoInFlight - 1, tasks := setTask s.tasks i .released }
    match s1.veoQueue with
    | j :: rest =>
      if s1.veoInFlight < s1.maxConcurrent then
        { s1 with veoQueue := rest
                  tasks := setTask s1.tasks j
                    (if s1.veoCooldownUntil ≤ s1.now then .incr
                     else .cdWait2 s1.veoCooldownUntil) }
      else s1
    | [] => s1
  | .armCooldown ms =>
    { s with veoCooldownUntil := max s.veoCooldownUntil (s.now + ms) }
  | .advanceTime t => { s with now := t }

/-- Run a list of steps. -/
def gateRun (steps : List GateStep) (s : GateState) : GateState :=
  steps.foldl gateApply s

/-- Is every step of the list enabled when it runs? -/
def gateEnabledAll : List GateStep → GateState → Bool
  | [], _ => true
  | st :: rest, s => gateEnabled s st && gateEnabledAll rest (gateApply s st)

/-- Initial state: `VEO_MAX_CONCURRENT = 1`, no cooldown, three
requests about to arrive (A = 0, B = 1, C = 2). -/
def gateInit : GateState :=
  { maxConcurrent := 1, veoInFlight := 0, veoQueue := [], veoCooldownUntil := 0
    now := 0, tasks := fun _ => .start }

/-- The overtake schedule.  A acquires the only slot; B queues behind
it; A's in-flight fetch receives a 429 at t=10 and arms the cooldown
until t=100; fresh caller C arrives at t=20 and sleeps on the cooldown
(timer created at t=20, deadline 100); A finishes and releases at t=30,
waking B, whose second `waitForVeoCooldown` sleeps until t=100 (timer
created at t=30, deadline 100).  At t=100 both timers expire; Node
fires C's first (earlier creation, same deadline): C sees
`veoInFlight = 0`, takes the slot.  Then B's wake path runs its blind
increment. -/
def overtakeTrace : List GateStep :=
  [ .callAcquire 0, .runCheck 0,
    .callAcquire 1, .runCheck 1,
    .advanceTime 10, .armCooldown 90,
    .advanceTime 20, .callAcquire 2,
    .advanceTime 30, .callRelease 0,
    .advanceTime 100,
    .timerFire1 2, .runCheck 2,
    .timerFire2 1, .runIncr 1 ]

/-! ## Slot accounting of `POST /api/veo`
(src/backend/server.js lines 519-850; src/unnamed/part_000 lines
1371-1776 with the early-cancel release at 1406-1413) -/

/-- The route configuration consulted before and after the slot is
acquired. -/
structure VeoRoute where
  requireImage : Bool
  includeImage : Bool
  hasApiKey : Bool
deriving DecidableEq

/-- The gate- and response-events the handler emits, in order. -/
inductive RouteEvent where
  | acquire
  | release
  | respond (status : Nat)
deriving DecidableEq

/-- The terminal outcome of the handler's `try` body (prompt build,
provider call, recovery retry, poll, response serialization).  None of
the code inside the `try` body touches the gate, so for slot accounting
only its terminal outcome matters: a response sent from within the
`try` (the `ready` path or a validation throw turned response), a
silent return (the canceled-midway paths), or an error reaching the
outer catch. -/
inductive BodyOutcome where
  | respond (status : Nat)
  | silentReturn
  | throwErr (msg : String)

/-- The `/canceled by client/i` test of the outer catch. -/
def isCanceledMessage (msg : String) : Bool :=
  rxTest (rlit "canceled by client") msg

/-- Does the request pass the three validation gates that run before
`acquireVeoSlot`? -/
def veoRouteValidates (cfg : VeoRoute) (hasImage hasMime : Bool) : Bool :=
  !(cfg.requireImage && !cfg.includeImage)
    && !(cfg.includeImage && (!hasImage || !hasMime))
    && cfg.hasApiKey

/-- The event trace of one `POST /api/veo` request (part_000 variant;
the server.js variant is the same without the two cancellation flags).
Validation rejections respond before the gate is touched; after
`acquireVeoSlot`, a client that disconnected while queued gets an
explicit `releaseVeoSlot` and a silent return before the `try`; every
path through the `try`/`catch` reaches the `finally`, which releases
the slot: the catch suppresses the response for canceled requests,
maps messages containing `429` to a 429 `rate_limited` response,
unsupported-image messages to a 400, and everything else to a 500. -/
def veoRouteTrace (cfg : VeoRoute) (hasImage hasMime : Bool)
    (canceledAtAcquire : Bool) (body : BodyOutcome)
    (canceledAtCatch : Bool) : List RouteEvent :=
  if cfg.requireImage && !cfg.includeImage then [.respond 400]
  else if cfg.includeImage && (!hasImage || !hasMime) then [.respond 400]
  else if !cfg.hasApiKey then [.respond 500]
  else
    RouteEvent.acquire ::
    (if canceledAtAcquire then [RouteEvent.release]
     else
       (match body with
        | .respond st => [RouteEvent.respond st]
        | .silentReturn => []
        | .throwErr msg =>
          if canceledAtCatch || isCanceledMessage msg then []
          else if jsIncludes msg "429" then [RouteEvent.respond 429]
          else if isUnsupportedImageError msg then [RouteEvent.respond 400]
          else [RouteEvent.respond 500])
       ++ [RouteEvent.release])

/-- Number of `acquire` events. -/
def countAcquire : List RouteEvent → Nat
  | [] => 0
  | .acquire :: t => countAcquire t + 1
  | _ :: t => countAcquire t

/-- Number of `release` events. -/
def countRelease : List RouteEvent → Nat
  | [] => 0
  | .release :: t => countRelease t + 1
  | _ :: t => countRelease t

/-! ## Claim theorems and supporting lemmas -/

/-- C10: for every input string, `stableSeedFromString` returns an
integer in the range `[1, 2147483646]` (never `0`, never more than
`2^31 - 2`), and equal input strings yield equal seeds. -/
theorem stableSeedFromString_range_det (s : String) :
    1 ≤ stableSeedFromString s ∧ stableSeedFromString s ≤ 2147483646 ∧
      ∀ t : String, s = t → stableSeedFromString s = stableSeedFromString t := by
  refine ⟨?_, ?_, fun t h => by rw [h]⟩ <;>
  · unfold stableSeedFromString
    have hlt :
        (utf16CodeUnits s).foldl fnvStep 2166136261 % 4294967296 % 2147483647
          < 2147483647 := Nat.mod_lt _ (by norm_num)
    dsimp only
    split <;> omega

/-! ## C8: adapter determinism and mode round-trip -/

/-- C8: with an image present, `first_frame` mode places the image on the
single job instance and leaves `referenceImages` unset; `reference` mode
places it in `parameters.referenceImages` and leaves the instance image
unset; and rebuilding after switching the mode twice yields the original
payload. -/
theorem buildVeoRequestBody_modes (a : VeoBuildArgs)
    (hinc : a.includeImage = true)
    (hid : truthyS a.imageData = true)
    (hmt : truthyS a.mimeType = true) :
    ((buildVeoRequestBody { a with imageMode := "first_frame" }).instances
        = [⟨a.prompt, some ⟨a.imageData.getD "", a.mimeType.getD ""⟩⟩]
      ∧ (buildVeoRequestBody { a with imageMode := "first_frame" }).parameters.referenceImages
        = none)
    ∧ ((buildVeoRequestBody { a with imageMode := "reference" }).instances
        = [⟨a.prompt, none⟩]
      ∧ (buildVeoRequestBody { a with imageMode := "reference" }).parameters.referenceImages
        = some [⟨"REFERENCE_TYPE_STYLE", 1, ⟨a.imageData.getD "", a.mimeType.getD ""⟩⟩])
    ∧ ∀ m : String,
        buildVeoRequestBody { a with imageMode := switchImageMode (switchImageMode m) }
          = buildVeoRequestBody { a with imageMode := m } := by
  refine ⟨⟨?_, ?_⟩, ⟨?_, ?_⟩, ?_⟩
  · simp [buildVeoRequestBody, hinc, hid, hmt]
  · simp [buildVeoRequestBody, hinc, hid, hmt]
  · simp [buildVeoRequestBody, hinc, hid, hmt]
  · simp [buildVeoRequestBody, hinc, hid, hmt]
  · intro m
    by_cases hm : m = "reference"
    · simp [switchImageMode, hm]
    · simp [switchImageMode, hm, buildVeoRequestBody]

/-- Witness for `buildVeoRequestBody_modes` at a concrete argument
record with an image present. -/
theorem buildVeoRequestBody_modes_witness :
    let a : VeoBuildArgs :=
      { prompt := "p", imageData := some "IMG", mimeType := some "image/png"
        aspectRatio := some "9:16", resolution := none
        personGeneration := some "allow_adult", numberOfVideos := some 1
        seed := some 7, includeImage := true, imageMode := "first_frame" }
    (buildVeoRequestBody { a with imageMode := "first_frame" }).instances
      = [⟨"p", some ⟨"IMG", "image/png"⟩⟩] := by
  intro a
  exact (buildVeoRequestBody_modes a (by decide) (by decide) (by decide)).1.1

theorem head_dropWhile_not {α : Type} (p : α → Bool) :
    ∀ (l : List α) (c : α), (l.dropWhile p).head? = some c → p c = false
  | [], c => by simp
  | a :: l, c => by
    rw [List.dropWhile_cons]
    by_cases h : p a
    · simpa [h] using head_dropWhile_not p l c
    · rw [if_neg h]
      intro hc
      have hac : a = c := by simpa using hc
      subst hac
      simpa using h

theorem startsWsp_iff (l : List Char) :
    startsWsp l = true ↔ ∃ d, l.head? = some d ∧ isJsWsp d = true := by
  cases l <;> simp [startsWsp]

theorem collapseGo_true_eq :
    ∀ l : List Char, collapseGo true l = collapseGo false (l.dropWhile isJsWsp)
  | [] => rfl
  | c :: rest => by
    by_cases h : isJsWsp c
    · rw [List.dropWhile_cons, if_pos h, show collapseGo true (c :: rest)
        = collapseGo true rest from by simp [collapseGo, h]]
      exact collapseGo_true_eq rest
    · rw [List.dropWhile_cons, if_neg h]
      simp [collapseGo, h]

theorem collapseGo_noAdj :
    ∀ (n : Nat) (l : List Char), l.length ≤ n →
      noAdjWsp (collapseGo false l) ∧
        (startsWsp (collapseGo false l) = true → startsWsp l = true)
  | 0, l, h => by
    have : l = [] := List.length_eq_zero.mp (Nat.le_zero.mp h)
    subst this
    exact ⟨List.chain'_nil, by simp [collapseGo]⟩
  | n + 1, [], _ => ⟨List.chain'_nil, by simp [collapseGo]⟩
  | n + 1, c :: rest, h => by
    have hr : rest.length ≤ n := by simpa using Nat.le_of_succ_le_succ h
    by_cases h1 : isJsWsp c && startsWsp rest
    · have heq : collapseGo false (c :: rest)
          = ' ' :: collapseGo false (rest.dropWhile isJsWsp) := by
        simp [collapseGo, h1, collapseGo_true_eq]
      have hlen : (rest.dropWhile isJsWsp).length ≤ n :=
        le_trans ((List.dropWhile_suffix isJsWsp).sublist.length_le) hr
      obtain ⟨ih1, _⟩ := collapseGo_noAdj n (rest.dropWhile isJsWsp) hlen
      constructor
      · rw [heq]
        refine List.chain'_cons'.mpr ⟨?_, ih1⟩
        intro y hy
        by_cases hwy : isJsWsp y
        · exfalso
          obtain ⟨ih1', ih2'⟩ := collapseGo_noAdj n (rest.dropWhile isJsWsp) hlen
          have hsy : startsWsp (collapseGo false (rest.dropWhile isJsWsp)) = true := by
            rw [startsWsp_iff]
            exact ⟨y, Option.mem_def.mp hy, by simpa using hwy⟩
          obtain ⟨d, hd, hdw⟩ := (startsWsp_iff _).mp (ih2' hsy)
          exact absurd (head_dropWhile_not isJsWsp rest d hd) (by simp [hdw])
        · exact Or.inr (by simpa using hwy)
      · intro _
        rw [Bool.and_eq_true] at h1
        simp only [startsWsp]
        exact h1.1
    · have heq : collapseGo false (c :: rest) = c :: collapseGo false rest := by
        simp [collapseGo, h1]
      obtain ⟨ih1, ih2⟩ := collapseGo_noAdj n rest hr
      constructor
      · rw [heq]
        refine List.chain'_cons'.mpr ⟨?_, ih1⟩
        intro y hy
        by_cases hwc : isJsWsp c
        · have hsr : startsWsp rest = false := by
            cases hsr : startsWsp rest
            · rfl
            · exact absurd h1 (by simp [hwc, hsr])
          by_cases hwy : isJsWsp y
          · exfalso
            have hsy : startsWsp (collapseGo false rest) = true := by
              rw [startsWsp_iff]
              exact ⟨y, Option.mem_def.mp hy, by simpa using hwy⟩
            have := ih2 hsy
            simp [hsr] at this
          · exact Or.inr (by simpa using hwy)
        · exact Or.inl (by simpa using hwc)
      · intro hs
        rw [heq] at hs
        simp only [startsWsp] at hs ⊢
        exact hs

theorem collapseGo_id :
    ∀ l : List Char, noAdjWsp l → collapseGo false l = l
  | [], _ => rfl
  | [c], _ => by
    simp [collapseGo, startsWsp, Bool.and_false]
  | c :: d :: rest, h => by
    have hcd : isJsWsp c = false ∨ isJsWsp d = false := (List.chain'_cons.mp h).1
    have h1 : (isJsWsp c && startsWsp (d :: rest)) = false := by
      rcases hcd with h' | h' <;> simp [startsWsp, h']
    have hrec := collapseGo_id (d :: rest) (List.Chain'.tail h)
    have heq : collapseGo false (c :: d :: rest)
        = c :: collapseGo false (d :: rest) := by
      show (if isJsWsp c && startsWsp (d :: rest) then
          ' ' :: collapseGo true (d :: rest)
        else c :: collapseGo false (d :: rest)) = _
      rw [h1]
      simp
    rw [heq, hrec]

theorem jsTrim_eq_rdropWhile (l : List Char) :
    jsTrim l = List.rdropWhile isJsWsp (l.dropWhile isJsWsp) := rfl

theorem jsTrim_within (l : List Char) : List.IsInfix (jsTrim l) l := by
  rw [jsTrim_eq_rdropWhile]
  exact (List.rdropWhile_prefix isJsWsp (l.dropWhile isJsWsp)).isInfix.trans
    (List.dropWhile_suffix isJsWsp).isInfix

theorem jsTrim_idem (l : List Char) : jsTrim (jsTrim l) = jsTrim l := by
  rw [jsTrim_eq_rdropWhile l, jsTrim_eq_rdropWhile]
  have h1 : (List.rdropWhile isJsWsp (l.dropWhile isJsWsp)).dropWhile isJsWsp
      = List.rdropWhile isJsWsp (l.dropWhile isJsWsp) := by
    rcases hpre : List.rdropWhile isJsWsp (l.dropWhile isJsWsp) with _ | ⟨c, t⟩
    · simp
    · obtain ⟨r, hr⟩ := List.rdropWhile_prefix isJsWsp (l.dropWhile isJsWsp)
      have hc : (l.dropWhile isJsWsp).head? = some c := by
        rw [← hr, hpre]; simp
      have := head_dropWhile_not isJsWsp l c hc
      rw [List.dropWhile_cons, if_neg (by simp [this])]
  rw [h1, List.rdropWhile_idempotent]

set_option maxRecDepth 100000 in
/-- C7 counterexample: the part_000 variant of `sanitizePrompt` is not
idempotent.  On `"mkillan"` the `kill` removal creates the word `man`,
which a second pass rewrites to `person`, so applying the function to
its own output changes the text. -/
theorem sanitizePrompt_not_idempotent :
    sanitizePrompt "mkillan" = "man" ∧ sanitizePrompt "man" = "person" ∧
      sanitizePrompt (sanitizePrompt "mkillan") ≠ sanitizePrompt "mkillan" := by
  constructor
  · decide
  constructor
  · decide
  · decide

/-- C7 amended: `sanitizePrompt` is a pure function in both variants (a
Lean function of the input text only), and the `server.js` variant —
whose replacement table is commented out, leaving only whitespace
collapsing and trimming — is idempotent on every input; the part_000
variant is not (see the counterexample). -/
theorem sanitizePromptServer_idempotent (t : String) :
    sanitizePromptServer (sanitizePromptServer t) = sanitizePromptServer t := by
  show (⟨jsTrim (collapseWsRun (String.data ⟨jsTrim (collapseWsRun t.data)⟩))⟩ : String)
      = ⟨jsTrim (collapseWsRun t.data)⟩
  have hm : noAdjWsp (collapseWsRun t.data) :=
    (collapseGo_noAdj (t.data.length) t.data le_rfl).1
  have hu : noAdjWsp (jsTrim (collapseWsRun t.data)) :=
    List.Chain'.infix hm (jsTrim_within (collapseWsRun t.data))
  have hid : collapseWsRun (jsTrim (collapseWsRun t.data))
      = jsTrim (collapseWsRun t.data) := collapseGo_id _ hu
  show (⟨jsTrim (collapseWsRun (jsTrim (collapseWsRun t.data)))⟩ : String) = _
  rw [hid, jsTrim_idem]

theorem setVeoCooldown_mono (ms : Option Int) (st : NetState) :
    st.veoCooldownUntil ≤ (setVeoCooldown ms st).veoCooldownUntil := by
  unfold setVeoCooldown
  cases ms with
  | none => exact le_refl _
  | some m =>
    dsimp only
    split
    · exact le_refl _
    · exact le_max_left _ _

theorem startsWithList_append (sub rest : List Char) :
    startsWithList (sub ++ rest) sub = true := by
  induction sub with
  | nil => cases rest <;> rfl
  | cons c t ih => simp [startsWithList, ih]

theorem containsList_append (l1 sub l2 : List Char) :
    containsList (l1 ++ sub ++ l2) sub = true := by
  induction l1 with
  | nil =>
    cases hs : sub with
    | nil =>
      simp only [List.nil_append]
      cases l2 with
      | nil => rfl
      | cons c t => simp [containsList, startsWithList]
    | cons s ss =>
      simp only [List.nil_append, List.cons_append, containsList]
      have h := startsWithList_append (s :: ss) l2
      rw [show (s :: ss) ++ l2 = s :: (ss ++ l2) from rfl] at h
      simp [h]
  | cons c t ih =>
    simp only [List.cons_append, containsList, List.append_eq]
    rw [ih]
    simp

/-- C4: if every fetch attempt returns HTTP 429 and `maxRetries ≥ 1`,
`fetchWithRetry` performs exactly `maxRetries` attempts and then throws
the 429 error, and the global cooldown deadline is monotonically
non-decreasing across the attempts (starting from its initial value). -/
theorem fetchWithRetry_always429 (oracle : Nat → FetchOutcome) (maxRetries : Nat)
    (st : NetState) (hmr : 1 ≤ maxRetries)
    (hall : ∀ i, ∃ h, oracle i = FetchOutcome.rateLimited h) :
    (fetchWithRetry oracle maxRetries st).result
        = .error "API error 429: Rate limited" ∧
      (fetchWithRetry oracle maxRetries st).attempts = maxRetries ∧
      List.Chain' (· ≤ ·)
        (st.veoCooldownUntil :: (fetchWithRetry oracle maxRetries st).cooldowns) := by
  have key : ∀ (remaining attempt : Nat) (lastErr : Option String) (st : NetState),
      (fetchWithRetryGo oracle maxRetries remaining attempt lastErr st).result
          = .error ((if remaining = 0 then lastErr
              else some "API error 429: Rate limited").getD "API error: Unknown failure") ∧
        (fetchWithRetryGo oracle maxRetries remaining attempt lastErr st).attempts
          = attempt + remaining ∧
        List.Chain' (· ≤ ·) (st.veoCooldownUntil ::
          (fetchWithRetryGo oracle maxRetries remaining attempt lastErr st).cooldowns) := by
    intro remaining
    induction remaining with
    | zero =>
      intro attempt lastErr st
      exact ⟨rfl, rfl, List.chain'_singleton _⟩
    | succ r ih =>
      intro attempt lastErr st
      obtain ⟨h, hor⟩ := hall attempt
      simp only [fetchWithRetryGo, hor]
      obtain ⟨ih1, ih2, ih3⟩ := ih (attempt + 1) (some "API error 429: Rate limited") _
      refine ⟨?_, ?_, ?_⟩
      · rw [ih1]
        cases r <;> simp
      · rw [ih2]; omega
      · refine List.chain'_cons.mpr ⟨setVeoCooldown_mono _ _, ?_⟩
        exact ih3
  obtain ⟨h1, h2, h3⟩ := key maxRetries 0 none st
  refine ⟨?_, ?_, h3⟩
  · rw [show fetchWithRetry oracle maxRetries st
        = fetchWithRetryGo oracle maxRetries maxRetries 0 none st from rfl, h1]
    have : maxRetries ≠ 0 := by omega
    simp [this]
  · rw [show fetchWithRetry oracle maxRetries st
        = fetchWithRetryGo oracle maxRetries maxRetries 0 none st from rfl, h2]
    omega

/-- Witness for `fetchWithRetry_always429`: two attempts against an
upstream that always answers 429 with `Retry-After: 7`. -/
theorem fetchWithRetry_always429_witness :
    (fetchWithRetry (fun _ => FetchOutcome.rateLimited (some "7")) 2 ⟨0, 0⟩).result
        = .error "API error 429: Rate limited" ∧
      (fetchWithRetry (fun _ => FetchOutcome.rateLimited (some "7")) 2 ⟨0, 0⟩).attempts = 2 ∧
      List.Chain' (· ≤ ·) ((0 : Int) ::
        (fetchWithRetry (fun _ => FetchOutcome.rateLimited (some "7")) 2 ⟨0, 0⟩).cooldowns) :=
  fetchWithRetry_always429 (fun _ => FetchOutcome.rateLimited (some "7")) 2 ⟨0, 0⟩
    (by norm_num) (fun _ => ⟨some "7", rfl⟩)

/-- C5 counterexample: the retry classifier is a substring test on the
whole error message, which embeds the response body, so a retryable
HTTP 500 whose body happens to contain the digits `400` is *not*
retried: with a budget of three attempts, only one attempt is made. -/
theorem fetchWithRetry_body400_not_retried :
    (fetchWithRetry (fun _ => FetchOutcome.httpError 500 "quota 400 exceeded") 3
        ⟨0, 0⟩).attempts = 1 ∧
      (fetchWithRetry (fun _ => FetchOutcome.httpError 500 "quota 400 exceeded") 3
        ⟨0, 0⟩).result = .error "API error 500: quota 400 exceeded" ∧
      (1 : Nat) ≠ 3 := by
  refine ⟨by decide, by rfl, by decide⟩

/-- One-step unfolding: a failing attempt whose retry condition is
false stops immediately with that message. -/
theorem fetchWithRetryGo_fail_stop (oracle : Nat → FetchOutcome) (maxRetries r attempt : Nat)
    (lastErr : Option String) (st : NetState) (msg : String)
    (hm : outcomeMsg (oracle attempt) = some msg)
    (hcond : (decide (attempt < maxRetries - 1) && !msgHasCallerFault msg) = false) :
    fetchWithRetryGo oracle maxRetries (r + 1) attempt lastErr st
      = { result := .error msg, attempts := attempt + 1
          cooldowns := [st.veoCooldownUntil], sleeps := [], final := st } := by
  cases horacle : oracle attempt with
  | ok body => rw [horacle] at hm; simp [outcomeMsg] at hm
  | rateLimited h => rw [horacle] at hm; simp [outcomeMsg] at hm
  | httpError status body =>
    rw [horacle] at hm
    simp only [outcomeMsg, Option.some.injEq] at hm
    subst hm
    simp only [fetchWithRetryGo, horacle, hcond, Bool.false_eq_true, if_false]
  | transport mm =>
    rw [horacle] at hm
    simp only [outcomeMsg, Option.some.injEq] at hm
    subst hm
    simp only [fetchWithRetryGo, horacle, hcond, Bool.false_eq_true, if_false]

/-- One-step unfolding: a failing attempt whose retry condition is true
sleeps `2^attempt` seconds and continues with the next attempt. -/
theorem fetchWithRetryGo_fail_retry (oracle : Nat → FetchOutcome) (maxRetries r attempt : Nat)
    (lastErr : Option String) (st : NetState) (msg : String)
    (hm : outcomeMsg (oracle attempt) = some msg)
    (hcond : (decide (attempt < maxRetries - 1) && !msgHasCallerFault msg) = true) :
    fetchWithRetryGo oracle maxRetries (r + 1) attempt lastErr st
      = { fetchWithRetryGo oracle maxRetries r (attempt + 1) (some msg)
            { st with now := st.now + 2 ^ attempt * 1000 } with
          cooldowns := st.veoCooldownUntil ::
            (fetchWithRetryGo oracle maxRetries r (attempt + 1) (some msg)
              { st with now := st.now + 2 ^ attempt * 1000 }).cooldowns
          sleeps := (2 ^ attempt * 1000 : Int) ::
            (fetchWithRetryGo oracle maxRetries r (attempt + 1) (some msg)
              { st with now := st.now + 2 ^ attempt * 1000 }).sleeps } := by
  cases horacle : oracle attempt with
  | ok body => rw [horacle] at hm; simp [outcomeMsg] at hm
  | rateLimited h => rw [horacle] at hm; simp [outcomeMsg] at hm
  | httpError status body =>
    rw [horacle] at hm
    simp only [outcomeMsg, Option.some.injEq] at hm
    subst hm
    simp only [fetchWithRetryGo, horacle, hcond, if_true]
  | transport mm =>
    rw [horacle] at hm
    simp only [outcomeMsg, Option.some.injEq] at hm
    subst hm
    simp only [fetchWithRetryGo, horacle, hcond, if_true]

/-- Helper for the amended C5 statement: a run in which every attempt
fails with a message free of the `400`/`401`/`403` substrings uses the
whole budget, throws the last message, and sleeps `2^attempt` seconds
between attempts. -/
theorem fetchWithRetryGo_allfail (oracle : Nat → FetchOutcome) (maxRetries : Nat)
    (hfail : ∀ i, ∃ m, outcomeMsg (oracle i) = some m ∧ msgHasCallerFault m = false) :
    ∀ (remaining attempt : Nat) (lastErr : Option String) (st : NetState),
      attempt + remaining = maxRetries → 1 ≤ remaining →
      (fetchWithRetryGo oracle maxRetries remaining attempt lastErr st).attempts
          = maxRetries ∧
        (fetchWithRetryGo oracle maxRetries remaining attempt lastErr st).result
          = .error ((outcomeMsg (oracle (maxRetries - 1))).getD "API error: Unknown failure") ∧
        (fetchWithRetryGo oracle maxRetries remaining attempt lastErr st).sleeps
          = (List.range (remaining - 1)).map (fun j => ((2 ^ (attempt + j) * 1000 : Int))) := by
  intro remaining
  induction remaining with
  | zero => intro attempt lastErr st hsum hge; omega
  | succ r ih =>
    intro attempt lastErr st hsum _
    obtain ⟨m, hm, hflt⟩ := hfail attempt
    rcases Nat.eq_zero_or_pos r with hr0 | hrpos
    · subst hr0
      have hatt : attempt = maxRetries - 1 := by omega
      have hcond : (decide (attempt < maxRetries - 1) && !msgHasCallerFault m) = false := by
        have h2 : ¬(attempt < maxRetries - 1) := by omega
        simp [h2]
      rw [fetchWithRetryGo_fail_stop oracle maxRetries 0 attempt lastErr st m hm hcond]
      refine ⟨?_, ?_, by simp⟩
      · show attempt + 1 = maxRetries
        omega
      rw [← hatt, hm]
      rfl
    · obtain ⟨r2, hr2⟩ := Nat.exists_eq_add_of_le hrpos
      have hlt : attempt < maxRetries - 1 := by omega
      have hcond : (decide (attempt < maxRetries - 1) && !msgHasCallerFault m) = true := by
        simp [hlt, hflt]
      rw [fetchWithRetryGo_fail_retry oracle maxRetries r attempt lastErr st m hm hcond]
      obtain ⟨ih1, ih2, ih3⟩ := ih (attempt + 1)
        (some m) ({ st with now := st.now + 2 ^ attempt * 1000 }) (by omega) (by omega)
      refine ⟨ih1, ih2, ?_⟩
      show (2 ^ attempt * 1000 : Int) :: _ = _
      rw [ih3]
      have hr : r + 1 - 1 = (r - 1) + 1 := by omega
      rw [hr, List.range_succ_eq_map]
      simp only [List.map_cons, List.map_map]
      refine congrArg₂ _ (by ring_nf) ?_
      refine List.map_congr_left ?_
      intro j _
      have hje : attempt + 1 + j = attempt + (j + 1) := by omega
      simp [Function.comp, Nat.succ_eq_add_one, hje]

theorem jsIncludes_middle (pre mid suf : String) :
    jsIncludes (pre ++ mid ++ suf) mid = true := by
  unfold jsIncludes
  have hdata : (pre ++ mid ++ suf).data = pre.data ++ mid.data ++ suf.data := by
    simp [String.data_append]
  rw [hdata]
  exact containsList_append _ _ _

/-- C5 amended: `fetchWithRetry` classifies by a substring test on the
whole error message (status line plus truncated body), not by the
status alone.  (1) If every attempt fails with a message free of the
substrings `400`, `401` and `403`, the client retries with `2^attempt`
seconds of backoff through the whole budget and then throws the last
message.  (2) If the first attempt fails with a message containing one
of those substrings, it throws immediately after exactly one attempt.
(3) A status of 400, 401 or 403 always yields such a message, so
caller-fault statuses are never retried. -/
theorem fetchWithRetry_classification (oracle : Nat → FetchOutcome)
    (maxRetries : Nat) (st : NetState) (hmr : 1 ≤ maxRetries) :
    ((∀ i, ∃ m, outcomeMsg (oracle i) = some m ∧ msgHasCallerFault m = false) →
      (fetchWithRetry oracle maxRetries st).attempts = maxRetries ∧
        (fetchWithRetry oracle maxRetries st).result
          = .error ((outcomeMsg (oracle (maxRetries - 1))).getD "API error: Unknown failure") ∧
        (fetchWithRetry oracle maxRetries st).sleeps
          = (List.range (maxRetries - 1)).map (fun j => ((2 ^ j * 1000 : Int))))
    ∧ ((∃ m, outcomeMsg (oracle 0) = some m ∧ msgHasCallerFault m = true) →
      (fetchWithRetry oracle maxRetries st).attempts = 1 ∧
        (fetchWithRetry oracle maxRetries st).result
          = .error ((outcomeMsg (oracle 0)).getD "API error: Unknown failure"))
    ∧ (∀ (status : Nat) (body : String), status = 400 ∨ status = 401 ∨ status = 403 →
      msgHasCallerFault
        ((outcomeMsg (FetchOutcome.httpError status body)).getD "") = true) := by
  refine ⟨?_, ?_, ?_⟩
  · intro hfail
    obtain ⟨h1, h2, h3⟩ := fetchWithRetryGo_allfail oracle maxRetries hfail
      maxRetries 0 none st (by omega) hmr
    refine ⟨h1, h2, ?_⟩
    rw [show fetchWithRetry oracle maxRetries st
        = fetchWithRetryGo oracle maxRetries maxRetries 0 none st from rfl, h3]
    simp
  · rintro ⟨m, hm, hflt⟩
    have hcond : (decide ((0 : Nat) < maxRetries - 1) && !msgHasCallerFault m) = false := by
      simp [hflt]
    obtain ⟨r, hr⟩ := Nat.exists_eq_add_of_le hmr
    have hstep := fetchWithRetryGo_fail_stop oracle maxRetries r 0 none st m hm hcond
    rw [show fetchWithRetry oracle maxRetries st
        = fetchWithRetryGo oracle maxRetries maxRetries 0 none st from rfl]
    rw [show maxRetries = r + 1 from by omega] at hstep ⊢
    rw [hstep, hm]
    exact ⟨rfl, rfl⟩
  · rintro status body (rfl | rfl | rfl)
    · simp only [outcomeMsg, Option.getD_some]
      have key : jsIncludes
          ("API error " ++ toString (400 : Nat) ++ ": " ++ strTake 200 body) "400" = true := by
        rw [String.append_assoc, show toString (400 : Nat) = "400" from rfl]
        exact jsIncludes_middle "API error " "400" (": " ++ strTake 200 body)
      unfold msgHasCallerFault
      rw [key]
      simp
    · simp only [outcomeMsg, Option.getD_some]
      have key : jsIncludes
          ("API error " ++ toString (401 : Nat) ++ ": " ++ strTake 200 body) "401" = true := by
        rw [String.append_assoc, show toString (401 : Nat) = "401" from rfl]
        exact jsIncludes_middle "API error " "401" (": " ++ strTake 200 body)
      unfold msgHasCallerFault
      rw [key]
      simp
    · simp only [outcomeMsg, Option.getD_some]
      have key : jsIncludes
          ("API error " ++ toString (403 : Nat) ++ ": " ++ strTake 200 body) "403" = true := by
        rw [String.append_assoc, show toString (403 : Nat) = "403" from rfl]
        exact jsIncludes_middle "API error " "403" (": " ++ strTake 200 body)
      unfold msgHasCallerFault
      rw [key]
      simp

/-- Witness for `fetchWithRetry_classification`: a transport failure
with message `boom` is retried through a budget of two attempts and the
last message is thrown. -/
theorem fetchWithRetry_classification_witness :
    (fetchWithRetry (fun _ => FetchOutcome.transport "boom") 2 ⟨0, 0⟩).attempts = 2 ∧
      (fetchWithRetry (fun _ => FetchOutcome.transport "boom") 2 ⟨0, 0⟩).result
        = .error "boom" := by
  have h := (fetchWithRetry_classification (fun _ => FetchOutcome.transport "boom") 2
    ⟨0, 0⟩ (by norm_num)).1 (fun _ => ⟨"boom", rfl, by decide⟩)
  exact ⟨h.1, by simpa using h.2.1⟩

theorem sleepWithCancelGo_nocancel (ms t0 : Nat) :
    ∀ (fuel elapsed : Nat), ms ≤ elapsed + fuel → elapsed ≤ ms →
      sleepWithCancelGo (fun _ => false) ms t0 fuel elapsed = .completed (t0 + ms) := by
  intro fuel
  induction fuel with
  | zero =>
    intro elapsed h1 h2
    have : elapsed = ms := by omega
    subst this
    rfl
  | succ f ih =>
    intro elapsed h1 h2
    by_cases hlt : elapsed < ms
    · simp only [sleepWithCancelGo, hlt, if_true, Bool.false_eq_true, if_false]
      exact ih (elapsed + min 250 (ms - elapsed)) (by omega) (by omega)
    · simp only [sleepWithCancelGo, hlt, if_false]
      have : elapsed = ms := by omega
      rw [this]

theorem pollOperationGo_exact (statuses : Nat → PollStatus) (resp : Option String) :
    ∀ (k r i t : Nat), k < r →
      (∀ j, j < k → statuses (i + j) = .pending) →
      statuses (i + k) = .done none resp →
      (pollOperationGo statuses (fun _ => false) r i t).result = .ok resp ∧
        (pollOperationGo statuses (fun _ => false) r i t).checks = i + k + 1 := by
  intro k
  induction k with
  | zero =>
    intro r i t hk _ hdone
    obtain ⟨r2, rfl⟩ := Nat.exists_eq_add_of_lt hk
    rw [show i + 0 = i from rfl] at hdone
    simp only [pollOperationGo, Bool.false_eq_true, if_false, hdone,
      Nat.add_comm 0 r2]
    exact ⟨by trivial, by trivial⟩
  | succ k2 ih =>
    intro r i t hk hpend hdone
    obtain ⟨r2, rfl⟩ := Nat.exists_eq_add_of_lt hk
    have hp0 : statuses i = .pending := by
      have := hpend 0 (by omega)
      simpa using this
    have hsleep : sleepWithCancel (fun _ => false) 5000 t = .completed (t + 5000) :=
      sleepWithCancelGo_nocancel 5000 t 5001 0 (by omega) (by omega)
    rw [show k2 + 1 + r2 + 1 = (k2 + r2 + 1) + 1 from by omega]
    simp only [pollOperationGo, Bool.false_eq_true, if_false, hp0, hsleep]
    have := ih (k2 + r2 + 1) (i + 1) (t + 5000) (by omega)
      (fun j hj => by
        have := hpend (j + 1) (by omega)
        rw [show i + 1 + j = i + (j + 1) from by omega]
        exact this)
      (by rw [show i + 1 + k2 = i + (k2 + 1) from by omega]; exact hdone)
    exact ⟨this.1, by rw [show i + (k2 + 1) + 1 = (i + 1) + k2 + 1 from by omega]; exact this.2⟩

theorem pollOperationGo_noCheckAfterCancel (statuses : Nat → PollStatus) (T : Nat) :
    ∀ (r i t x : Nat),
      x ∈ (pollOperationGo statuses (stepCancel T) r i t).checkTimes → x < T := by
  intro r
  induction r with
  | zero => intro i t x hx; simp [pollOperationGo] at hx
  | succ r2 ih =>
    intro i t x hx
    by_cases hc : stepCancel T t = true
    · simp [pollOperationGo, hc] at hx
    · have ht : t < T := by
        simp [stepCancel] at hc
        omega
      simp only [pollOperationGo, hc, Bool.false_eq_true, if_false] at hx
      cases hstat : statuses i with
      | pending =>
        rw [hstat] at hx
        cases hsleep : sleepWithCancel (stepCancel T) 5000 t with
        | canceled tc =>
          rw [hsleep] at hx
          simp at hx
          omega
        | completed tc =>
          rw [hsleep] at hx
          simp at hx
          rcases hx with rfl | hx2
          · exact ht
          · exact ih (i + 1) tc x hx2
      | done err rsp =>
        rw [hstat] at hx
        cases err with
        | some emsg => simp at hx; omega
        | none => simp at hx; omega

theorem sleepWithCancelGo_sliceBound (ms t0 T : Nat) :
    ∀ (fuel elapsed : Nat), t0 + elapsed < T + 250 →
      ∀ D, sleepWithCancelGo (stepCancel T) ms t0 fuel elapsed = .canceled D →
        T ≤ D ∧ D < T + 250 := by
  intro fuel
  induction fuel with
  | zero => intro elapsed hprev D hD; simp [sleepWithCancelGo] at hD
  | succ f ih =>
    intro elapsed hprev D hD
    by_cases hlt : elapsed < ms
    · by_cases hc : stepCancel T (t0 + elapsed) = true
      · simp only [sleepWithCancelGo, hlt, if_true, hc] at hD
        have hTe : T ≤ t0 + elapsed := by simpa [stepCancel] using hc
        cases hD
        exact ⟨hTe, hprev⟩
      · simp only [sleepWithCancelGo, hlt, if_true, hc, Bool.false_eq_true, if_false] at hD
        have hTe : t0 + elapsed < T := by
          simp [stepCancel] at hc
          omega
        exact ih (elapsed + min 250 (ms - elapsed)) (by omega) D hD
    · simp only [sleepWithCancelGo, hlt, if_false] at hD
      exact SleepResult.noConfusion hD

theorem pollOperationGo_timeout (statuses : Nat → PollStatus)
    (hpend : ∀ i, statuses i = .pending) :
    ∀ (r i t : Nat),
      (pollOperationGo statuses (fun _ => false) r i t).result
          = .error "Video generation timed out" ∧
        (pollOperationGo statuses (fun _ => false) r i t).checks = i + r := by
  intro r
  induction r with
  | zero => intro i t; exact ⟨rfl, rfl⟩
  | succ r2 ih =>
    intro i t
    have hsleep : sleepWithCancel (fun _ => false) 5000 t = .completed (t + 5000) :=
      sleepWithCancelGo_nocancel 5000 t 5001 0 (by omega) (by omega)
    simp only [pollOperationGo, Bool.false_eq_true, if_false, hpend i, hsleep]
    obtain ⟨h1, h2⟩ := ih (i + 1) (t + 5000)
    exact ⟨h1, by rw [show i + (r2 + 1) = (i + 1) + r2 from by omega]; exact h2⟩

/-- C6: (1) an operation that is pending for the first `k < 180` checks
and done with a response on check `k+1` makes `pollOperation` return
that response after exactly `k+1` checks; (2) at any loop head where
the cancellation predicate is set, the poller throws the cancellation
error at once, issuing zero further status checks; (3) with a
cancellation flag that becomes true at time `T`, every status check of
the whole run happens strictly before `T`; (4) the inter-poll sleep is
interruptible in 250ms slices: a cancellation set at time `T` during a
sleep entered before `T` lands within one slice, at a time in
`[T, T + 250)`; and (5) 180 pending checks with no cancellation throw
the timeout error. -/
theorem pollOperation_spec :
    (∀ (statuses : Nat → PollStatus) (k : Nat) (resp : Option String),
      k < 180 → (∀ j, j < k → statuses j = .pending) →
      statuses k = .done none resp →
      (pollOperation statuses (fun _ => false)).result = .ok resp ∧
        (pollOperation statuses (fun _ => false)).checks = k + 1)
    ∧ (∀ (statuses : Nat → PollStatus) (cancel : Nat → Bool) (r i t : Nat),
      cancel t = true →
      (pollOperationGo statuses cancel (r + 1) i t).result
          = .error "Request canceled by client" ∧
        (pollOperationGo statuses cancel (r + 1) i t).checks = i ∧
        (pollOperationGo statuses cancel (r + 1) i t).checkTimes = [])
    ∧ (∀ (statuses : Nat → PollStatus) (T r i t x : Nat),
      x ∈ (pollOperationGo statuses (stepCancel T) r i t).checkTimes → x < T)
    ∧ (∀ (ms t0 T : Nat), t0 < T →
      ∀ D, sleepWithCancel (stepCancel T) ms t0 = .canceled D →
        T ≤ D ∧ D < T + 250)
    ∧ (∀ statuses : Nat → PollStatus, (∀ i, statuses i = .pending) →
      (pollOperation statuses (fun _ => false)).result
          = .error "Video generation timed out" ∧
        (pollOperation statuses (fun _ => false)).checks = 180) := by
  refine ⟨?_, ?_, ?_, ?_, ?_⟩
  · intro statuses k resp hk hpend hdone
    have := pollOperationGo_exact statuses resp k 180 0 0 hk
      (fun j hj => by simpa using hpend j hj) (by simpa using hdone)
    refine ⟨this.1, ?_⟩
    show (pollOperationGo statuses (fun _ => false) 180 0 0).checks = k + 1
    have h2 := this.2
    omega
  · intro statuses cancel r i t hc
    simp [pollOperationGo, hc]
  · intro statuses T r i t x hx
    exact pollOperationGo_noCheckAfterCancel statuses T r i t x hx
  · intro ms t0 T ht D hD
    exact sleepWithCancelGo_sliceBound ms t0 T (ms + 1) 0 (by omega) D hD
  · intro statuses hpend
    have := pollOperationGo_timeout statuses hpend 180 0 0
    refine ⟨this.1, ?_⟩
    show (pollOperationGo statuses (fun _ => false) 180 0 0).checks = 180
    have h2 := this.2
    omega

/-- Witness for `pollOperation_spec`: two pending checks, then a done
operation carrying a video URI, returned after exactly three checks;
and a cancellation set at time 6000 (during the second sleep) detected
at 6000, within one 250ms slice. -/
theorem pollOperation_spec_witness :
    ((pollOperation (fun i => if i < 2 then .pending else .done none (some "gs://v"))
        (fun _ => false)).result = .ok (some "gs://v") ∧
      (pollOperation (fun i => if i < 2 then .pending else .done none (some "gs://v"))
        (fun _ => false)).checks = 3) ∧
      (∀ D, sleepWithCancel (stepCancel 6000) 5000 5000 = .canceled D →
        6000 ≤ D ∧ D < 6250) := by
  constructor
  · refine pollOperation_spec.1 (fun i => if i < 2 then .pending else .done none (some "gs://v"))
      2 (some "gs://v") (by omega) ?_ (by rfl)
    intro j hj
    interval_cases j <;> rfl
  · exact fun D hD => pollOperation_spec.2.2.2.1 5000 5000 6000 (by omega) D hD

set_option maxRecDepth 100000 in
/-- C3 counterexample: in the `personGeneration` recovery branch the
orchestrator retries even when the payload has no `personGeneration`
field to delete, so the retry resends the exact same payload as the
attempt that just failed. -/
theorem recoverStart_resends_same_payload :
    recoverStart ⟨true, false⟩ pgArgs "first_frame" false
        (buildVeoRequestBody pgArgs) pgMsg
      = Recovery.retry "first_frame" false (buildVeoRequestBody pgArgs) ∧
      geminiStartBodies ⟨true, false⟩ pgArgs "first_frame" (some pgMsg)
        = [buildVeoRequestBody pgArgs, buildVeoRequestBody pgArgs] := by
  constructor
  · decide
  · decide

theorem build_refImages_none (args : VeoBuildArgs) (hm : args.imageMode ≠ "reference") :
    (buildVeoRequestBody args).parameters.referenceImages = none := by
  simp only [buildVeoRequestBody]
  by_cases himg : (args.includeImage && truthyS args.imageData && truthyS args.mimeType) = true
  · rw [if_pos himg, if_neg hm]
  · rw [if_neg himg]

theorem build_refImages_some (args : VeoBuildArgs) (hm : args.imageMode = "reference")
    (hinc : args.includeImage = true) (hid : truthyS args.imageData = true)
    (hmt : truthyS args.mimeType = true) :
    (buildVeoRequestBody args).parameters.referenceImages
      = some [⟨"REFERENCE_TYPE_STYLE", 1, ⟨args.imageData.getD "", args.mimeType.getD ""⟩⟩] := by
  simp only [buildVeoRequestBody]
  rw [if_pos (by simp [hinc, hid, hmt]), if_pos hm]

theorem paramsDelete_ne (p : VeoParameters) (f : String)
    (h : paramsHasField p f = true) : paramsDelete p f ≠ p := by
  unfold paramsHasField at h
  unfold paramsDelete
  split_ifs at h ⊢ with h1 h2 h3 h4 h5 h6 <;>
    first
    | (intro heq
       first
       | (have hp := congrArg VeoParameters.aspectRatio heq
          simp only at hp
          rw [← hp] at h
          simp at h)
       | (have hp := congrArg VeoParameters.resolution heq
          simp only at hp
          rw [← hp] at h
          simp at h)
       | (have hp := congrArg VeoParameters.numberOfVideos heq
          simp only at hp
          rw [← hp] at h
          simp at h)
       | (have hp := congrArg VeoParameters.personGeneration heq
          simp only at hp
          rw [← hp] at h
          simp at h)
       | (have hp := congrArg VeoParameters.seed heq
          simp only at hp
          rw [← hp] at h
          simp at h)
       | (have hp := congrArg VeoParameters.referenceImages heq
          simp only at hp
          rw [← hp] at h
          simp at h))
    | simp at h

theorem deleteInstanceImage_params (b : VeoRequestBody) :
    (deleteInstanceImage b).parameters = b.parameters := by
  unfold deleteInstanceImage
  cases hbi : b.instances with
  | nil => rfl
  | cons inst rest =>
    simp only
    split
    · rfl
    · rfl

theorem deleteImages_instances (b : VeoRequestBody) :
    (deleteImages b).instances = (deleteInstanceImage b).instances := by
  unfold deleteImages
  simp only
  split
  · rfl
  · rfl

theorem deleteInstanceImage_instances_of_has (b : VeoRequestBody)
    (inst : VeoInstance) (rest : List VeoInstance)
    (hbi : b.instances = inst :: rest) (h : inst.image.isSome = true) :
    (deleteInstanceImage b).instances = ⟨inst.prompt, none⟩ :: rest := by
  unfold deleteInstanceImage
  rw [hbi]
  simp only
  rw [if_pos h]

theorem deleteImages_ne (b : VeoRequestBody)
    (h : instanceHasImage b = true ∨ refImagesTruthyLen b = true) :
    deleteImages b ≠ b := by
  rcases h with h | h
  · unfold instanceHasImage at h
    rcases hbi : b.instances with _ | ⟨inst, rest⟩
    · rw [hbi] at h
      exact absurd h (by simp)
    · rw [hbi] at h
      have hsome : inst.image.isSome = true := h
      intro heq
      have hinsts := congrArg VeoRequestBody.instances heq
      rw [deleteImages_instances,
        deleteInstanceImage_instances_of_has b inst rest hbi hsome, hbi] at hinsts
      injection hinsts with hhead _
      have himg := congrArg VeoInstance.image hhead
      simp only at himg
      rw [← himg] at hsome
      simp at hsome
  · unfold refImagesTruthyLen at h
    rcases hrl : b.parameters.referenceImages with _ | l
    · rw [hrl] at h
      exact absurd h (by simp)
    · intro heq
      have hnone : (deleteImages b).parameters.referenceImages = none := by
        unfold deleteImages
        simp only
        rw [if_pos (by rw [deleteInstanceImage_params, hrl]; simp)]
      have hr := congrArg (fun x => (VeoRequestBody.parameters x).referenceImages) heq
      simp only at hr
      rw [hnone, hrl] at hr
      exact Option.noConfusion hr

theorem recoverImage_distinct (cfg : OrchConfig) (args : VeoBuildArgs)
    (imageMode : String) (msg : String)
    (hreq : cfg.requireImage = true →
      args.includeImage = true ∧ truthyS args.imageData = true ∧ truthyS args.mimeType = true) :
    ∀ (m2 : String) (t2 : Bool) (b2 : VeoRequestBody),
      recoverImage cfg args imageMode false
          (buildVeoRequestBody { args with imageMode := imageMode }) msg
        = Recovery.retry m2 t2 b2 →
      b2 ≠ buildVeoRequestBody { args with imageMode := imageMode } := by
  intro m2 t2 b2 hrec
  unfold recoverImage at hrec
  by_cases hcondi : isUnsupportedImageError msg = true
      ∧ (instanceHasImage (buildVeoRequestBody { args with imageMode := imageMode }) = true
        ∨ refImagesTruthyLen (buildVeoRequestBody { args with imageMode := imageMode }) = true)
  · rw [if_pos hcondi] at hrec
    by_cases hcr : cfg.requireImage = true
    · rw [if_pos hcr, if_pos rfl] at hrec
      injection hrec with _ _ hb2
      subst hb2
      obtain ⟨hinc, hid, hmt⟩ := hreq hcr
      by_cases him : imageMode = "reference"
      · intro heq
        have hp := congrArg (fun x => (VeoRequestBody.parameters x).referenceImages) heq
        simp only at hp
        rw [build_refImages_none { args with imageMode := switchImageMode imageMode }
              (by simp [switchImageMode, him]),
            build_refImages_some { args with imageMode := imageMode }
              (by simpa using him) (by simpa using hinc) (by simpa using hid)
              (by simpa using hmt)] at hp
        exact Option.noConfusion hp
      · intro heq
        have hp := congrArg (fun x => (VeoRequestBody.parameters x).referenceImages) heq
        simp only at hp
        rw [build_refImages_some { args with imageMode := switchImageMode imageMode }
              (by simp [switchImageMode, him]) (by simpa using hinc) (by simpa using hid)
              (by simpa using hmt),
            build_refImages_none { args with imageMode := imageMode }
              (by simpa using him)] at hp
        exact Option.noConfusion hp
    · rw [if_neg hcr] at hrec
      by_cases haf : cfg.allowImageFallback = false
      · rw [if_pos haf] at hrec
        exact Recovery.noConfusion hrec
      · rw [if_neg haf] at hrec
        injection hrec with _ _ hb2
        subst hb2
        exact deleteImages_ne _ hcondi.2
  · rw [if_neg hcondi] at hrec
    exact Recovery.noConfusion hrec

/-- C3 amended: the rejection-recovery catch issues at most one retry,
so at most two upstream start attempts happen in total (a fortiori
within two beyond the first as the claim states), and the retry payload
always differs from the failed payload except in two degenerate
branches: when the classifier names `personGeneration` but the payload
carries no such field, or names `referenceImages` with
`VEO_REQUIRE_IMAGE` disabled and the payload carries no reference
list — in those branches the identical payload is resent once.  The
hypothesis records the validation invariant of the route: when
`VEO_REQUIRE_IMAGE` is set, the request carries an image. -/
theorem geminiStart_bounded_distinct (cfg : OrchConfig) (args : VeoBuildArgs)
    (imageMode : String) (msg : String)
    (hreq : cfg.requireImage = true →
      args.includeImage = true ∧ truthyS args.imageData = true
        ∧ truthyS args.mimeType = true) :
    (∀ firstResult : Option String,
      (geminiStartBodies cfg args imageMode firstResult).length ≤ 2)
    ∧ ∀ b1 : VeoRequestBody,
      geminiStartBodies cfg args imageMode (some msg)
          = [buildVeoRequestBody { args with imageMode := imageMode }, b1] →
      b1 ≠ buildVeoRequestBody { args with imageMode := imageMode }
        ∨ recoveryDegenerate cfg
            (buildVeoRequestBody { args with imageMode := imageMode }) msg := by
  constructor
  · intro firstResult
    unfold geminiStartBodies
    cases firstResult with
    | none => simp
    | some m =>
      simp only
      cases recoverStart cfg args imageMode false
          (buildVeoRequestBody { args with imageMode := imageMode }) m with
      | retry a b c => simp
      | rethrow a => simp
  · intro b1 hlist
    unfold geminiStartBodies at hlist
    simp only at hlist
    rcases hrec : recoverStart cfg args imageMode false
        (buildVeoRequestBody { args with imageMode := imageMode }) msg with
      ⟨m2, t2, b2⟩ | m2
    · rw [hrec] at hlist
      simp only [List.cons.injEq, and_true, true_and] at hlist
      subst hlist
      unfold recoverStart at hrec
      cases huf : getUnsupportedField msg with
      | none =>
        rw [huf] at hrec
        exact Or.inl (recoverImage_distinct cfg args imageMode msg hreq m2 t2 b2 hrec)
      | some f =>
        rw [huf] at hrec
        simp only at hrec
        by_cases hf1 : f = "referenceImages"
        · subst hf1
          rw [if_pos rfl] at hrec
          by_cases hcr : cfg.requireImage = true
          · rw [if_pos hcr] at hrec
            by_cases him : imageMode = "reference"
            · rw [if_pos ⟨him, by trivial⟩] at hrec
              injection hrec with _ _ hb2
              subst hb2
              obtain ⟨hinc, hid, hmt⟩ := hreq hcr
              refine Or.inl fun heq => ?_
              have hp := congrArg (fun x => (VeoRequestBody.parameters x).referenceImages) heq
              simp only at hp
              rw [build_refImages_none { args with imageMode := "first_frame" } (by simp),
                  build_refImages_some { args with imageMode := imageMode }
                    (by simpa using him) (by simpa using hinc) (by simpa using hid)
                    (by simpa using hmt)] at hp
              exact Option.noConfusion hp
            · rw [if_neg (by simp [him])] at hrec
              exact Recovery.noConfusion hrec
          · rw [if_neg hcr] at hrec
            injection hrec with _ _ hb2
            subst hb2
            by_cases hrl : (buildVeoRequestBody
                { args with imageMode := imageMode }).parameters.referenceImages = none
            · exact Or.inr (Or.inr ⟨huf, by simpa using hcr, hrl⟩)
            · refine Or.inl fun heq => ?_
              have hp := congrArg (fun x => (VeoRequestBody.parameters x).referenceImages) heq
              simp only at hp
              exact hrl hp.symm
        · rw [if_neg hf1] at hrec
          by_cases hf2 : f = "personGeneration"
          · subst hf2
            rw [if_pos rfl] at hrec
            injection hrec with _ _ hb2
            subst hb2
            by_cases hpg : (buildVeoRequestBody
                { args with imageMode := imageMode }).parameters.personGeneration = none
            · exact Or.inr (Or.inl ⟨huf, hpg⟩)
            · refine Or.inl fun heq => ?_
              have hp := congrArg
                (fun x => (VeoRequestBody.parameters x).personGeneration) heq
              simp only at hp
              exact hpg hp.symm
          · rw [if_neg hf2] at hrec
            by_cases hf3 : paramsHasField
                (buildVeoRequestBody { args with imageMode := imageMode }).parameters f = true
            · rw [if_pos hf3] at hrec
              injection hrec with _ _ hb2
              subst hb2
              refine Or.inl fun heq => ?_
              have hp := congrArg VeoRequestBody.parameters heq
              simp only at hp
              exact paramsDelete_ne _ f hf3 hp
            · rw [if_neg hf3] at hrec
              exact Or.inl (recoverImage_distinct cfg args imageMode msg hreq m2 t2 b2 hrec)
    · rw [hrec] at hlist
      simp at hlist

/-- Witness for `geminiStart_bounded_distinct` at a concrete
configuration: an image-required setup in reference mode whose upstream
rejects `referenceImages`; the one retry carries a different payload. -/
theorem geminiStart_bounded_distinct_witness :
    (geminiStartBodies ⟨true, false⟩ pgArgs "reference"
        (some "`referenceImages` isn\x27t supported")).length ≤ 2 := by
  exact (geminiStart_bounded_distinct ⟨true, false⟩ pgArgs "reference"
    "`referenceImages` isn\x27t supported"
    (fun _ => ⟨rfl, by decide, by decide⟩)).1
    (some "`referenceImages` isn\x27t supported")

/-- C1 (code bug): the overtake schedule is enabled step by step, yet
it drives `veoInFlight` to 2 while `VEO_MAX_CONCURRENT = 1` — the gate
invariant `veoInFlight ≤ maxSlots` is violated, because the wake path
increments without re-checking the bound after its cooldown sleep. -/
theorem veoGate_inFlight_exceeds_max :
    gateEnabledAll overtakeTrace gateInit = true ∧
      gateInit.maxConcurrent = 1 ∧
      (gateRun overtakeTrace gateInit).veoInFlight = 2 := by
  refine ⟨by decide, rfl, by decide⟩

/-- C2 (code bug): after the first 13 steps of the same schedule the
fresh caller C (task 2), which arrived after B (task 1) and never
queued, holds a slot, while B — enqueued at step 4, its client never
disconnected — is still waiting on its wake-path cooldown sleep. -/
theorem veoGate_fifo_violated :
    gateEnabledAll overtakeTrace gateInit = true ∧
      (gateRun (overtakeTrace.take 4) gateInit).veoQueue = [1] ∧
      (gateRun (overtakeTrace.take 7) gateInit).tasks 2 = .start ∧
      (gateRun (overtakeTrace.take 13) gateInit).tasks 2 = .holding ∧
      (gateRun (overtakeTrace.take 13) gateInit).tasks 1 = .cdWait2 100 := by
  refine ⟨by decide, by decide, by decide, by decide, by decide⟩

/-- C9: on every terminal outcome of a `POST /api/veo` request — ready,
failed, rate-limited, or canceled (at any of the cancellation points)
— the number of `releaseVeoSlot` calls equals the number of successful
`acquireVeoSlot` calls, and the slot is acquired exactly once when
validation passes and never when a validation rejection is issued. -/
theorem veoRoute_release_matches_acquire (cfg : VeoRoute) (hasImage hasMime : Bool)
    (canceledAtAcquire : Bool) (body : BodyOutcome) (canceledAtCatch : Bool) :
    countRelease (veoRouteTrace cfg hasImage hasMime canceledAtAcquire body canceledAtCatch)
        = countAcquire (veoRouteTrace cfg hasImage hasMime canceledAtAcquire body canceledAtCatch)
      ∧ countAcquire (veoRouteTrace cfg hasImage hasMime canceledAtAcquire body canceledAtCatch)
        = (if veoRouteValidates cfg hasImage hasMime then 1 else 0) := by
  unfold veoRouteTrace veoRouteValidates
  by_cases h1 : (cfg.requireImage && !cfg.includeImage) = true
  · simp [h1, countAcquire, countRelease]
  · by_cases h2 : (cfg.includeImage && (!hasImage || !hasMime)) = true
    · simp [h1, h2, countAcquire, countRelease]
    · by_cases h3 : cfg.hasApiKey
      · by_cases h4 : canceledAtAcquire
        · simp [h1, h2, h3, h4, countAcquire, countRelease]
        · cases body with
          | respond st =>
            simp [h1, h2, h3, h4, countAcquire, countRelease]
          | silentReturn =>
            simp [h1, h2, h3, h4, countAcquire, countRelease]
          | throwErr msg =>
            by_cases h5 : (canceledAtCatch || isCanceledMessage msg) = true
            · simp [h1, h2, h3, h4, h5, countAcquire, countRelease]
            · by_cases h6 : jsIncludes msg "429" = true
              · simp [h1, h2, h3, h4, h5, h6, countAcquire, countRelease]
              · by_cases h7 : isUnsupportedImageError msg = true
                · simp [h1, h2, h3, h4, h5, h6, h7, countAcquire, countRelease]
                · simp [h1, h2, h3, h4, h5, h6, h7, countAcquire, countRelease]
      · simp [h1, h2, h3, countAcquire, countRelease]
